import Mathlib

/-!
Verification of the message transport and dispatch framework of the Python
build-server fixture `Sources/SKTestSupport/INPUTS/AbstractBuildServer.py`.

The embedding models:
  * JSON values (`JValue`) as produced by `json.loads` and consumed by
    `json.dumps`.  Python dicts are embedded as ordered key/value spines
    (`objNil` / `objCons`), lists as `arrNil` / `arrCons`.  JSON numbers are
    restricted to integers (the fixture never sends or receives floats, and
    the exotic `NaN` / `Infinity` extensions of the Python json module are
    likewise out of scope of every claim).
  * `json.dumps` (default arguments: `ensure_ascii=True`,
    separators `(", ", ": ")`) as `serV SMode.top` / `pyDumps`.
  * `json.loads` as `pyLoads`, a fuel-indexed recursive-descent parser
    following the stdlib pure-Python scanner (string escapes including
    `\uXXXX` and surrogate pairs, whitespace skipping, dict construction by
    repeated key assignment).  One deliberate simplification: the number
    grammar accepts leading zeros and only integers; no claim depends on
    inputs where this differs from the stdlib.
  * `AbstractBuildServer.handle_message` as `handleMessage`, the body of one
    iteration of `AbstractBuildServer.run` as `processMessage`, and the whole
    receive loop as `run` (fuel-indexed; `s.length + 1` fuel always suffices
    because every iteration consumes at least one input character).
  * `AbstractBuildServer.send_raw_message` as `sendRawMessage` and
    `send_notification` as `sendNotificationMessage`.
  * Uncaught Python exceptions (failed `assert`, `KeyError` on a missing
    dict key, `json.JSONDecodeError`, `ValueError` from `int`, `TypeError`
    from subscripting a non-dict) are all fatal to the loop; they are modelled
    by the `crash` / `crashed` / `fatalR` / `fatal` outcomes.  The streams are
    modelled as lists of Unicode code points; the fixture reads stdin in text
    mode, and no behaviour any claim touches depends on newline translation,
    because every serialized body is pure ASCII with control characters
    escaped.
-/

/-- Code points of a Lean string literal, used to write Python strings. -/
def pystr (s : String) : List Nat := s.data.map Char.toNat

/-- JSON values as handled by the Python json module.  Arrays and objects are
embedded as their own cons spines so that every function on `JValue` is plain
structural recursion. -/
inductive JValue where
  | null
  | bool (b : Bool)
  | num (n : Int)
  | str (s : List Nat)
  | arrNil
  | arrCons (hd tl : JValue)
  | objNil
  | objCons (key : List Nat) (val tl : JValue)
deriving DecidableEq

/-- Build an object spine from a list of key/value pairs (a Python dict
literal with the keys in the given order). -/
def objOf : List (List Nat × JValue) → JValue
  | [] => .objNil
  | (k, v) :: r => .objCons k v (objOf r)

/-- Build an array spine from a list of values. -/
def listToArr : List JValue → JValue
  | [] => .arrNil
  | x :: r => .arrCons x (listToArr r)

/-- Python `message[k]` on a dict, as a partial lookup: `none` both when the
key is missing (Python `KeyError`) and when the value is not a dict at all
(Python `TypeError`); in every modelled context both raise and are fatal. -/
def dictGet : JValue → List Nat → Option JValue
  | .objCons k0 v0 t, k => if k0 = k then some v0 else dictGet t k
  | _, _ => none

/-- Python `k in message` for a dict. -/
def hasKeyB (m : JValue) (k : List Nat) : Bool := (dictGet m k).isSome

/-- Python dict assignment `d[k] = v`: replace in place if the key exists,
append otherwise. -/
def setKeySpine : JValue → List Nat → JValue → JValue
  | .objCons k0 v0 t, k, v =>
    if k0 = k then .objCons k0 v t else .objCons k0 v0 (setKeySpine t k v)
  | .objNil, k, v => .objCons k v .objNil
  | other, _, _ => other

/-- Python `dict(pairs)`: insert the pairs left to right into an empty dict. -/
def dictOfPairs (ps : List (List Nat × JValue)) : JValue :=
  ps.foldl (fun d kv => setKeySpine d kv.1 kv.2) .objNil

/-- Decimal digit characters of `n`, most significant first, with enough fuel. -/
def natToDecAux : Nat → Nat → List Nat
  | 0, _ => []
  | fuel + 1, n => if n = 0 then [] else natToDecAux fuel (n / 10) ++ [48 + n % 10]

/-- Python `str(n)` / `repr(n)` for a non-negative integer. -/
def natToDecimal (n : Nat) : List Nat := if n = 0 then [48] else natToDecAux (n + 1) n

/-- Python `str(n)` for an arbitrary integer, also the json encoding of it. -/
def intToDec : Int → List Nat
  | Int.ofNat m => natToDecimal m
  | Int.negSucc m => 45 :: natToDecimal (m + 1)

/-- Lowercase hexadecimal digit character, as produced by the `%04x` format
used by the json encoder. -/
def hexDigit (d : Nat) : Nat := if d < 10 then 48 + d else 87 + d

/-- Four lowercase hex digit characters of `n < 65536`. -/
def hex4 (n : Nat) : List Nat :=
  [hexDigit (n / 4096), hexDigit (n / 256 % 16), hexDigit (n / 16 % 16), hexDigit (n % 16)]

/-- The escaping of one character performed by the json encoder with
`ensure_ascii=True`: short escapes for backslash, quote and the five named
control characters, printable ASCII kept literal, everything else as
`\uXXXX`, with a surrogate pair for code points above `0xFFFF`. -/
def escChar (c : Nat) : List Nat :=
  if c = 92 then [92, 92]
  else if c = 34 then [92, 34]
  else if c = 8 then [92, 98]
  else if c = 9 then [92, 116]
  else if c = 10 then [92, 110]
  else if c = 12 then [92, 102]
  else if c = 13 then [92, 114]
  else if 32 ≤ c ∧ c ≤ 126 then [c]
  else if c < 65536 then 92 :: 117 :: hex4 c
  else 92 :: 117 :: hex4 (55296 + (c - 65536) / 1024) ++ (92 :: 117 :: hex4 (56320 + (c - 65536) % 1024))

def escStr : List Nat → List Nat
  | [] => []
  | c :: r => escChar c ++ escStr r

/-- Json encoding of a string: quote, escaped body, quote. -/
def serStr (s : List Nat) : List Nat := 34 :: (escStr s ++ [34])

/-- Rendering mode: a whole value, the tail of an array (after the first
element), or the tail of an object (after the first pair). -/
inductive SMode where
  | top
  | atail
  | otail
deriving DecidableEq

/-- `json.dumps` with its default separators `(", ", ": ")`. -/
def serV : SMode → JValue → List Nat
  | .top, .null => pystr "null"
  | .top, .bool true => pystr "true"
  | .top, .bool false => pystr "false"
  | .top, .num n => intToDec n
  | .top, .str s => serStr s
  | .top, .arrNil => [91, 93]
  | .top, .arrCons h t => 91 :: (serV .top h ++ serV .atail t ++ [93])
  | .top, .objNil => [123, 125]
  | .top, .objCons k v t => 123 :: (serStr k ++ 58 :: 32 :: serV .top v ++ serV .otail t ++ [125])
  | .atail, .arrCons h t => 44 :: 32 :: serV .top h ++ serV .atail t
  | .atail, _ => []
  | .otail, .objCons k v t => 44 :: 32 :: serStr k ++ 58 :: 32 :: serV .top v ++ serV .otail t
  | .otail, _ => []

/-- Python `json.dumps(message)`. -/
def pyDumps (v : JValue) : List Nat := serV .top v

/-- Python `repr` of a json-shaped value, in the same three rendering modes.
Only reachable through `pyStrOf` on non-string method values, which no claim
exercises; the string case keeps the exact container/number/keyword forms and
simplifies the escaping inside quoted strings. -/
def pyReprV : SMode → JValue → List Nat
  | .top, .null => pystr "None"
  | .top, .bool true => pystr "True"
  | .top, .bool false => pystr "False"
  | .top, .num n => intToDec n
  | .top, .str s => 39 :: (s ++ [39])
  | .top, .arrNil => [91, 93]
  | .top, .arrCons h t => 91 :: (pyReprV .top h ++ pyReprV .atail t ++ [93])
  | .top, .objNil => [123, 125]
  | .top, .objCons k v t =>
    123 :: ((39 :: (k ++ [39])) ++ 58 :: 32 :: pyReprV .top v ++ pyReprV .otail t ++ [125])
  | .atail, .arrCons h t => 44 :: 32 :: pyReprV .top h ++ pyReprV .atail t
  | .atail, _ => []
  | .otail, .objCons k v t =>
    44 :: 32 :: ((39 :: (k ++ [39])) ++ 58 :: 32 :: pyReprV .top v ++ pyReprV .otail t)
  | .otail, _ => []

/-- Python `str(x)` on a json-shaped value: identity on strings, `repr`
otherwise. -/
def pyStrOf : JValue → List Nat
  | .str s => s
  | v => pyReprV .top v

/-- Whitespace skipping of the json scanner (space, tab, newline, return). -/
def skipWs : List Nat → List Nat
  | [] => []
  | c :: r => if c = 32 ∨ c = 9 ∨ c = 10 ∨ c = 13 then skipWs r else c :: r

/-- Value of a hex digit character, upper or lower case. -/
def hexVal (c : Nat) : Option Nat :=
  if 48 ≤ c ∧ c ≤ 57 then some (c - 48)
  else if 97 ≤ c ∧ c ≤ 102 then some (c - 87)
  else if 65 ≤ c ∧ c ≤ 70 then some (c - 55)
  else none

/-- Parse exactly four hex digit characters. -/
def parseHex4 : List Nat → Option (Nat × List Nat)
  | a :: b :: c :: d :: r =>
    match hexVal a, hexVal b, hexVal c, hexVal d with
    | some x, some y, some z, some w => some (((x * 16 + y) * 16 + z) * 16 + w, r)
    | _, _, _, _ => none
  | _ => none

/-- The BACKSLASH table of the json scanner. -/
def unescapeChar (e : Nat) : Option Nat :=
  if e = 34 then some 34 else if e = 92 then some 92 else if e = 47 then some 47
  else if e = 98 then some 8 else if e = 102 then some 12 else if e = 110 then some 10
  else if e = 114 then some 13 else if e = 116 then some 9 else none

/-- The body of `py_scanstring`, entered after the opening quote: literal
characters, backslash escapes, `\uXXXX` with surrogate-pair recombination,
strict rejection of raw control characters.  The fuel only needs to exceed
the number of decoded characters. -/
def parseStringAux : Nat → List Nat → Option (List Nat × List Nat)
  | 0, _ => none
  | fuel + 1, s =>
    match s with
    | [] => none
    | c :: r =>
      if c = 34 then some ([], r)
      else if c = 92 then
        match r with
        | [] => none
        | e :: r2 =>
          if e = 117 then
            match parseHex4 r2 with
            | none => none
            | some (u, r3) =>
              if 55296 ≤ u ∧ u ≤ 56319 then
                match r3 with
                | 92 :: 117 :: r4 =>
                  match parseHex4 r4 with
                  | none => none
                  | some (u2, r5) =>
                    if 56320 ≤ u2 ∧ u2 ≤ 57343 then
                      (parseStringAux fuel r5).map
                        (fun p => ((65536 + (u - 55296) * 1024 + (u2 - 56320)) :: p.1, p.2))
                    else (parseStringAux fuel r3).map (fun p => (u :: p.1, p.2))
                | _ => (parseStringAux fuel r3).map (fun p => (u :: p.1, p.2))
              else (parseStringAux fuel r3).map (fun p => (u :: p.1, p.2))
          else
            match unescapeChar e with
            | none => none
            | some c2 => (parseStringAux fuel r2).map (fun p => (c2 :: p.1, p.2))
      else if c < 32 then none
      else (parseStringAux fuel r).map (fun p => (c :: p.1, p.2))

/-- Longest digit-character run at the head of the input. -/
def spanDigits : List Nat → (List Nat × List Nat)
  | [] => ([], [])
  | c :: r =>
    if 48 ≤ c ∧ c ≤ 57 then ((c :: (spanDigits r).1), (spanDigits r).2)
    else ([], c :: r)

/-- Numeric value of a most-significant-first digit character run. -/
def digitsVal (l : List Nat) : Nat := l.foldl (fun a c => a * 10 + (c - 48)) 0

/-- Integer literal of the json grammar (sign and digits). -/
def parseNumber (s : List Nat) : Option (JValue × List Nat) :=
  match s with
  | [] => none
  | c :: r =>
    if c = 45 then
      match spanDigits r with
      | ([], _) => none
      | (ds, r2) => some (.num (-(digitsVal ds : Int)), r2)
    else
      match spanDigits (c :: r) with
      | ([], _) => none
      | (ds, r2) => some (.num (digitsVal ds), r2)

/-- The three mutually recursive procedures of the json scanner, indexed by
fuel: `.1` scans one value, `.2.1` the elements of an array after its opening
bracket and leading whitespace, `.2.2` the pairs of an object starting at the
quote of a key.  Every nested call decreases the fuel by one and consumes at
least one character, so fuel `length + 1` always suffices. -/
def parsers (fuel : Nat) :
    (List Nat → Option (JValue × List Nat)) ×
    (List Nat → Option (List JValue × List Nat)) ×
    (List Nat → Option (List (List Nat × JValue) × List Nat)) :=
  match fuel with
  | 0 => (fun _ => none, fun _ => none, fun _ => none)
  | fuel + 1 =>
    let pv := (parsers fuel).1
    let pa := (parsers fuel).2.1
    let po := (parsers fuel).2.2
    ( fun s =>
        match s with
        | [] => none
        | c :: r =>
          if c = 110 then
            match r with
            | 117 :: 108 :: 108 :: r2 => some (.null, r2)
            | _ => none
          else if c = 116 then
            match r with
            | 114 :: 117 :: 101 :: r2 => some (.bool true, r2)
            | _ => none
          else if c = 102 then
            match r with
            | 97 :: 108 :: 115 :: 101 :: r2 => some (.bool false, r2)
            | _ => none
          else if c = 34 then
            (parseStringAux (r.length + 1) r).map (fun p => (JValue.str p.1, p.2))
          else if c = 91 then
            match skipWs r with
            | [] => none
            | c2 :: r2 =>
              if c2 = 93 then some (.arrNil, r2)
              else (pa (c2 :: r2)).map (fun p => (listToArr p.1, p.2))
          else if c = 123 then
            match skipWs r with
            | [] => none
            | c2 :: r2 =>
              if c2 = 125 then some (.objNil, r2)
              else (po (c2 :: r2)).map (fun p => (dictOfPairs p.1, p.2))
          else parseNumber (c :: r)
    , fun s =>
        match pv s with
        | none => none
        | some (v, r) =>
          match skipWs r with
          | 93 :: r2 => some ([v], r2)
          | 44 :: r2 =>
            match pa (skipWs r2) with
            | none => none
            | some (vs, r3) => some (v :: vs, r3)
          | _ => none
    , fun s =>
        match s with
        | 34 :: r =>
          match parseStringAux (r.length + 1) r with
          | none => none
          | some (k, r2) =>
            match skipWs r2 with
            | 58 :: r3 =>
              match pv (skipWs r3) with
              | none => none
              | some (v, r4) =>
                match skipWs r4 with
                | 125 :: r5 => some ([(k, v)], r5)
                | 44 :: r5 =>
                  match po (skipWs r5) with
                  | none => none
                  | some (ps, r6) => some ((k, v) :: ps, r6)
                | _ => none
            | _ => none
        | _ => none)

def parseValue (fuel : Nat) : List Nat → Option (JValue × List Nat) := (parsers fuel).1

def parseArrLoop (fuel : Nat) : List Nat → Option (List JValue × List Nat) := (parsers fuel).2.1

def parseObjLoop (fuel : Nat) : List Nat → Option (List (List Nat × JValue) × List Nat) :=
  (parsers fuel).2.2

/-- Python `json.loads`: skip leading whitespace, scan one value, require
only whitespace to remain. -/
def pyLoads (s : List Nat) : Option JValue :=
  match parseValue (s.length + 1) (skipWs s) with
  | some (v, r) => if skipWs r = [] then some v else none
  | none => none

/-- Message keys used by the dispatcher. -/
def jsonrpcK : List Nat := pystr "jsonrpc"

def idK : List Nat := pystr "id"

def methodK : List Nat := pystr "method"

def paramsK : List Nat := pystr "params"

def resultK : List Nat := pystr "result"

def errorK : List Nat := pystr "error"

/-- Outcome of a call to `handle_message`: a normal return (Python `None` or
a result dict), a raised `RequestError`, or any other uncaught exception. -/
inductive HandleOutcome where
  | ok (result : Option JValue)
  | requestError (code : Int) (message : List Nat)
  | crash
deriving DecidableEq

/-- The result dict of the default `AbstractBuildServer.initialize` handler. -/
def initializeResult : JValue := objOf
  [ (pystr "displayName", .str (pystr "test server"))
  , (pystr "version", .str (pystr "0.1"))
  , (pystr "bspVersion", .str (pystr "2.0"))
  , (pystr "rootUri", .str (pystr "blah"))
  , (pystr "capabilities", objOf [(pystr "languageIds", listToArr [.str (pystr "a"), .str (pystr "b")])])
  , (pystr "data", objOf
      [ (pystr "indexDatabasePath", .str (pystr "some/index/db/path"))
      , (pystr "indexStorePath", .str (pystr "some/index/store/path"))
      , (pystr "sourceKitOptionsProvider", .bool true) ]) ]

/-- The method names of the dispatch chain of `handle_message`, in source
order. -/
def tableMethods : List (List Nat) :=
  [ pystr "build/exit"
  , pystr "build/initialize"
  , pystr "build/initialized"
  , pystr "build/shutdown"
  , pystr "buildTarget/sources"
  , pystr "textDocument/registerForChanges"
  , pystr "textDocument/sourceKitOptions"
  , pystr "workspace/didChangeWatchedFiles"
  , pystr "workspace/buildTargets" ]

/-- The dispatch-chain methods whose default handler body is `pass` (returns
Python `None`). -/
def noReplyMethods : List (List Nat) :=
  [ pystr "build/exit"
  , pystr "build/initialized"
  , pystr "textDocument/registerForChanges"
  , pystr "workspace/didChangeWatchedFiles" ]

/-- `AbstractBuildServer.handle_message` with the default handlers of the
base class: fetch `message["method"]` and `message["params"]` (a missing key
raises `KeyError`, modelled as `crash`), then dispatch on the method string. -/
def handleMessage (message : JValue) : HandleOutcome :=
  match dictGet message methodK with
  | none => .crash
  | some mv =>
    match dictGet message paramsK with
    | none => .crash
    | some _ =>
      let method := pyStrOf mv
      if method = pystr "build/exit" then .ok none
      else if method = pystr "build/initialize" then .ok (some initializeResult)
      else if method = pystr "build/initialized" then .ok none
      else if method = pystr "build/shutdown" then .ok (some .objNil)
      else if method = pystr "buildTarget/sources" then
        .requestError (-32601) (pystr "\x27buildTarget/sources\x27 not implemented")
      else if method = pystr "textDocument/registerForChanges" then .ok none
      else if method = pystr "textDocument/sourceKitOptions" then
        .requestError (-32601) (pystr "\x27textDocument/sourceKitOptions\x27 not implemented")
      else if method = pystr "workspace/didChangeWatchedFiles" then .ok none
      else if method = pystr "workspace/buildTargets" then
        .requestError (-32601) (pystr "\x27workspace/buildTargets\x27 not implemented")
      else if hasKeyB message idK then
        .requestError (-32601) (pystr "Method not found: " ++ method)
      else .ok none

/-- The success response dict built in `run`. -/
def successResponse (idv result : JValue) : JValue :=
  objOf [(jsonrpcK, .str (pystr "2.0")), (idK, idv), (resultK, result)]

/-- The error response dict built in the `except RequestError` branch of
`run`. -/
def errorResponse (idv : JValue) (code : Int) (emsg : List Nat) : JValue :=
  objOf [(jsonrpcK, .str (pystr "2.0")), (idK, idv),
         (errorK, objOf [(pystr "code", .num code), (pystr "message", .str emsg)])]

/-- Observable outcome of one iteration body of `run` on a decoded message:
either the loop continues after writing `out` (zero or one responses), or an
uncaught exception tears the whole loop down. -/
inductive StepOutcome where
  | emit (out : List JValue)
  | crashed
deriving DecidableEq

/-- The dispatch part of one iteration of `AbstractBuildServer.run`: call
`handle_message`; on a non-`None` result send a success response, on a raised
`RequestError` send an error response; both response constructions read
`message["id"]` and crash with `KeyError` when it is absent. -/
def processMessage (message : JValue) : StepOutcome :=
  match handleMessage message with
  | .ok none => .emit []
  | .ok (some result) =>
    match dictGet message idK with
    | none => .crashed
    | some idv => .emit [successResponse idv result]
  | .requestError c em =>
    match dictGet message idK with
    | none => .crashed
    | some idv => .emit [errorResponse idv c em]
  | .crash => .crashed

/-- The message dict built by `AbstractBuildServer.send_notification`. -/
def sendNotificationMessage (method : List Nat) (params : JValue) : JValue :=
  objOf [(jsonrpcK, .str (pystr "2.0")), (methodK, .str method), (paramsK, params)]

/-- `AbstractBuildServer.send_raw_message`: the bytes written for one message,
a Content-Length header over the length of the serialized body, a blank line,
and the body. -/
def sendRawMessage (m : JValue) : List Nat :=
  let body := pyDumps m
  pystr "Content-Length: " ++ natToDecimal body.length ++ [13, 10, 13, 10] ++ body

/-- Python `sys.stdin.readline()`: the line including its newline, and the
remaining stream; at end of input the line is empty. -/
def readline : List Nat → List Nat × List Nat
  | [] => ([], [])
  | c :: r =>
    if c = 10 then ([10], r)
    else
      let p := readline r
      (c :: p.1, p.2)

/-- The literal `"Content-Length:"` checked by the assert in `run`. -/
def clChars : List Nat := pystr "Content-Length:"

/-- Python `line.startswith(pat)`. -/
def startsWithCL : List Nat → List Nat → Bool
  | [], _ => true
  | _ :: _, [] => false
  | p :: ps, c :: cs => if p = c then startsWithCL ps cs else false

/-- The whitespace stripped by Python `int(str)`. -/
def isPyWs (c : Nat) : Bool := c = 32 || c = 9 || c = 10 || c = 13 || c = 11 || c = 12

/-- Strip leading and trailing whitespace. -/
def stripChars (l : List Nat) : List Nat :=
  ((l.dropWhile isPyWs).reverse.dropWhile isPyWs).reverse

/-- Value of a non-empty all-digit character run, else `none`. -/
def digitsToNat (l : List Nat) : Option Nat :=
  if l = [] then none
  else if l.all (fun c => decide (48 ≤ c ∧ c ≤ 57)) then some (digitsVal l) else none

/-- Python `int(str)`: strip whitespace, optional sign, decimal digits;
`none` models the `ValueError` raised on anything else.  (The underscore
digit separators Python also accepts are not modelled; no claim uses them.) -/
def pyInt (l : List Nat) : Option Int :=
  match stripChars l with
  | [] => none
  | c :: ds =>
    if c = 45 then (digitsToNat ds).map (fun n => -(n : Int))
    else if c = 43 then (digitsToNat ds).map (fun n => (n : Int))
    else (digitsToNat (c :: ds)).map (fun n => (n : Int))

/-- Result of the frame-receiving steps at the top of each `run` iteration
(lines 30 to 37 of the fixture): clean end of input, a fatal protocol or
decode error, or one decoded message together with the unread remainder of
the stream. -/
inductive RecvResult where
  | eofR
  | fatalR
  | msg (v : JValue) (rest : List Nat)
deriving DecidableEq

/-- One frame receive: read the header line (empty means end of input),
assert the `Content-Length:` token, parse the byte count with `int`, discard
the separator line, read that many characters and decode them with
`json.loads`.  A negative count makes Python `read` consume the whole rest of
the stream. -/
def receiveMessage (s : List Nat) : RecvResult :=
  let p := readline s
  if p.1.length = 0 then .eofR
  else if startsWithCL clChars p.1 = false then .fatalR
  else
    match pyInt (p.1.drop 15) with
    | none => .fatalR
    | some n =>
      let q := readline p.2
      let body := if n < 0 then q.2 else q.2.take n.toNat
      let rest := if n < 0 then [] else q.2.drop n.toNat
      match pyLoads body with
      | some v => .msg v rest
      | none => .fatalR

/-- Outcome of the whole receive loop: terminated at end of input having
written `out`, or torn down by an uncaught exception having written `out`. -/
inductive RunResult where
  | done (out : List JValue)
  | fatal (out : List JValue)
deriving DecidableEq

/-- `AbstractBuildServer.run`, fuel-indexed.  Fuel `0` is unreachable from
`run` because every iteration consumes at least one character. -/
def runAux : Nat → List Nat → RunResult
  | 0, _ => .fatal []
  | fuel + 1, s =>
    match receiveMessage s with
    | .eofR => .done []
    | .fatalR => .fatal []
    | .msg v rest =>
      match processMessage v with
      | .emit out =>
        match runAux fuel rest with
        | .done out2 => .done (out ++ out2)
        | .fatal out2 => .fatal (out ++ out2)
      | .crashed => .fatal []

/-- `AbstractBuildServer.run` on an inbound stream: the sequence of messages
written to stdout and how the loop ended. -/
def run (s : List Nat) : RunResult := runAux (s.length + 1) s

/-- Well-formed strings: valid Unicode code points, no surrogates.  Python
strings containing surrogate code points are not valid Unicode text and do
not round-trip through the json module (adjacent escaped surrogates are
recombined by the scanner). -/
def wfStr (s : List Nat) : Bool :=
  s.all (fun c => decide (c < 1114112 ∧ ¬(55296 ≤ c ∧ c ≤ 57343)))

/-- One-level array-spine check. -/
def isArrLink : JValue → Bool
  | .arrNil => true
  | .arrCons _ _ => true
  | _ => false

/-- One-level object-spine check. -/
def isObjLink : JValue → Bool
  | .objNil => true
  | .objCons _ _ _ => true
  | _ => false

/-- Well-formed values: well-formed strings everywhere, well-formed spines,
and no duplicate keys inside any object (a Python dict cannot hold
duplicates). -/
def wfV : JValue → Bool
  | .null => true
  | .bool _ => true
  | .num _ => true
  | .str s => wfStr s
  | .arrNil => true
  | .arrCons h t => wfV h && wfV t && isArrLink t
  | .objNil => true
  | .objCons k v t => wfStr k && wfV v && wfV t && isObjLink t && (dictGet t k).isNone

/-- Deep array-spine check. -/
def isArrSpine : JValue → Bool
  | .arrNil => true
  | .arrCons _ t => isArrSpine t
  | _ => false

/-- Deep object-spine check. -/
def isObjSpine : JValue → Bool
  | .objNil => true
  | .objCons _ _ t => isObjSpine t
  | _ => false

/-- The elements of an array spine. -/
def itemsOf : JValue → List JValue
  | .arrCons h t => h :: itemsOf t
  | _ => []

/-- The pairs of an object spine, in order. -/
def pairsOf : JValue → List (List Nat × JValue)
  | .objCons k v t => (k, v) :: pairsOf t
  | _ => []

/-- Append a fresh pair at the end of an object spine. -/
def objSnoc : JValue → List Nat → JValue → JValue
  | .objCons k0 v0 t, k, v => .objCons k0 v0 (objSnoc t k v)
  | _, k, v => .objCons k v .objNil

/-- Concatenate an object spine with another object value. -/
def objConcat : JValue → JValue → JValue
  | .objCons k v t, u => .objCons k v (objConcat t u)
  | _, u => u

/-- Fuel needed by the json scanner on the serialization of a value. -/
def jsz : JValue → Nat
  | .null => 1
  | .bool _ => 1
  | .num _ => 1
  | .str _ => 1
  | .arrNil => 1
  | .arrCons h t => 1 + jsz h + jsz t
  | .objNil => 1
  | .objCons _ v t => 1 + jsz v + jsz t

/-- The continuation after a serialized number must not begin with a digit
(the number scanner is greedy); inside serialized containers it begins with
a comma or a closing bracket. -/
def noDigitHead : List Nat → Prop
  | [] => True
  | c :: _ => c < 48 ∨ 57 < c

/-! ### Concrete example messages used by witnesses and counterexamples -/

/-- Concrete message used to refute claim C1: a Request (it has an id) whose
method is in the dispatch table but whose default handler returns `None`. -/
def c1msg : JValue :=
  objOf [(idK, .num 1), (methodK, .str (pystr "build/initialized")), (paramsK, .objNil)]

/-- Concrete request used to witness the amended claim C1. -/
def c1wmsg : JValue :=
  objOf [(idK, .num 7), (methodK, .str (pystr "build/shutdown")), (paramsK, .objNil)]

/-- Concrete unknown-method request used to witness claim C3. -/
def c3msg : JValue :=
  objOf [(idK, .num 5), (methodK, .str (pystr "foo/bar")), (paramsK, .objNil)]

/-- Concrete `buildTarget/sources` request used to witness claim C4. -/
def c4msg : JValue :=
  objOf [(idK, .num 3), (methodK, .str (pystr "buildTarget/sources")), (paramsK, .objNil)]

/-- Concrete id-less `buildTarget/sources` message used to witness claim C5. -/
def c5msg : JValue :=
  objOf [(methodK, .str (pystr "buildTarget/sources")), (paramsK, .objNil)]

/-- Concrete unknown-method notification used to witness claim C7. -/
def c7msg : JValue :=
  objOf [(methodK, .str (pystr "foo/bar")), (paramsK, .objNil)]

/-- Concrete shutdown request used to witness claim C8. -/
def c8msg : JValue :=
  objOf [(idK, .num 9), (methodK, .str (pystr "build/shutdown")), (paramsK, .objNil)]

/-- Concrete `textDocument/registerForChanges` request (with an id) used to
witness claim C10. -/
def c10msg : JValue :=
  objOf [(idK, .num 4), (methodK, .str (pystr "textDocument/registerForChanges")), (paramsK, .objNil)]

/-- Concrete `build/exit` notification used for claim C2. -/
def c2exitMsg : JValue :=
  objOf [(methodK, .str (pystr "build/exit")), (paramsK, .objNil)]

/-- Concrete `build/shutdown` request framed after the exit notification in
the claim C2 counterexample stream. -/
def c2shutdownMsg : JValue :=
  objOf [(idK, .num 1), (methodK, .str (pystr "build/shutdown")), (paramsK, .objNil)]

/-- Concrete message used to witness the claim C6 round-trip. -/
def c6msg : JValue :=
  objOf [(jsonrpcK, .str (pystr "2.0")), (idK, .num 2),
         (methodK, .str (pystr "build/initialize")), (paramsK, .objNil)]

/-- Concrete inbound stream with a malformed header line, for claim C9. -/
def c9stream : List Nat := pystr "Hello\nWorld"

/-! ### Dispatch-level lemmas -/

lemma dictGet_cons (k0 k : List Nat) (v0 t : JValue) :
    dictGet (.objCons k0 v0 t) k = if k0 = k then some v0 else dictGet t k := rfl

lemma handleMessage_exit (message pv : JValue)
    (hm : dictGet message methodK = some (.str (pystr "build/exit")))
    (hp : dictGet message paramsK = some pv) :
    handleMessage message = .ok none := by
  simp only [handleMessage, hm, hp, pyStrOf]
  simp

lemma handleMessage_initializeMethod (message pv : JValue)
    (hm : dictGet message methodK = some (.str (pystr "build/initialize")))
    (hp : dictGet message paramsK = some pv) :
    handleMessage message = .ok (some initializeResult) := by
  simp only [handleMessage, hm, hp, pyStrOf]
  rw [if_neg (by decide)]
  simp

lemma handleMessage_initialized (message pv : JValue)
    (hm : dictGet message methodK = some (.str (pystr "build/initialized")))
    (hp : dictGet message paramsK = some pv) :
    handleMessage message = .ok none := by
  simp only [handleMessage, hm, hp, pyStrOf]
  rw [if_neg (by decide), if_neg (by decide)]
  simp

lemma handleMessage_shutdown (message pv : JValue)
    (hm : dictGet message methodK = some (.str (pystr "build/shutdown")))
    (hp : dictGet message paramsK = some pv) :
    handleMessage message = .ok (some .objNil) := by
  simp only [handleMessage, hm, hp, pyStrOf]
  rw [if_neg (by decide), if_neg (by decide), if_neg (by decide)]
  simp

lemma handleMessage_sources (message pv : JValue)
    (hm : dictGet message methodK = some (.str (pystr "buildTarget/sources")))
    (hp : dictGet message paramsK = some pv) :
    handleMessage message =
      .requestError (-32601) (pystr "\x27buildTarget/sources\x27 not implemented") := by
  simp only [handleMessage, hm, hp, pyStrOf]
  rw [if_neg (by decide), if_neg (by decide), if_neg (by decide), if_neg (by decide)]
  simp

lemma handleMessage_registerForChanges (message pv : JValue)
    (hm : dictGet message methodK = some (.str (pystr "textDocument/registerForChanges")))
    (hp : dictGet message paramsK = some pv) :
    handleMessage message = .ok none := by
  simp only [handleMessage, hm, hp, pyStrOf]
  rw [if_neg (by decide), if_neg (by decide), if_neg (by decide), if_neg (by decide),
    if_neg (by decide)]
  simp

lemma handleMessage_sourceKitOptions (message pv : JValue)
    (hm : dictGet message methodK = some (.str (pystr "textDocument/sourceKitOptions")))
    (hp : dictGet message paramsK = some pv) :
    handleMessage message =
      .requestError (-32601) (pystr "\x27textDocument/sourceKitOptions\x27 not implemented") := by
  simp only [handleMessage, hm, hp, pyStrOf]
  rw [if_neg (by decide), if_neg (by decide), if_neg (by decide), if_neg (by decide),
    if_neg (by decide), if_neg (by decide)]
  simp

lemma handleMessage_didChangeWatchedFiles (message pv : JValue)
    (hm : dictGet message methodK = some (.str (pystr "workspace/didChangeWatchedFiles")))
    (hp : dictGet message paramsK = some pv) :
    handleMessage message = .ok none := by
  simp only [handleMessage, hm, hp, pyStrOf]
  rw [if_neg (by decide), if_neg (by decide), if_neg (by decide), if_neg (by decide),
    if_neg (by decide), if_neg (by decide), if_neg (by decide)]
  simp

lemma handleMessage_buildTargets (message pv : JValue)
    (hm : dictGet message methodK = some (.str (pystr "workspace/buildTargets")))
    (hp : dictGet message paramsK = some pv) :
    handleMessage message =
      .requestError (-32601) (pystr "\x27workspace/buildTargets\x27 not implemented") := by
  simp only [handleMessage, hm, hp, pyStrOf]
  rw [if_neg (by decide), if_neg (by decide), if_neg (by decide), if_neg (by decide),
    if_neg (by decide), if_neg (by decide), if_neg (by decide), if_neg (by decide)]
  simp

lemma handleMessage_unknown (message : JValue) (s : List Nat) (pv : JValue)
    (hm : dictGet message methodK = some (.str s))
    (hp : dictGet message paramsK = some pv)
    (hunk : s ∉ tableMethods) :
    handleMessage message =
      if hasKeyB message idK then
        .requestError (-32601) (pystr "Method not found: " ++ s)
      else .ok none := by
  simp only [tableMethods, List.mem_cons, List.mem_singleton, not_or] at hunk
  obtain ⟨h1, h2, h3, h4, h5, h6, h7, h8, h9, -⟩ := hunk
  simp only [handleMessage, hm, hp, pyStrOf]
  rw [if_neg h1, if_neg h2, if_neg h3, if_neg h4, if_neg h5, if_neg h6, if_neg h7,
    if_neg h8, if_neg h9]

lemma dictGet_success_id (idv r : JValue) :
    dictGet (successResponse idv r) idK = some idv := by
  simp only [successResponse, objOf, dictGet_cons]
  rw [if_neg (by decide)]
  simp

lemma dictGet_error_id (idv : JValue) (c : Int) (em : List Nat) :
    dictGet (errorResponse idv c em) idK = some idv := by
  simp only [errorResponse, objOf, dictGet_cons]
  rw [if_neg (by decide)]
  simp

lemma processMessage_of_result (message idv result : JValue)
    (h : handleMessage message = .ok (some result))
    (hid : dictGet message idK = some idv) :
    processMessage message = .emit [successResponse idv result] := by
  simp only [processMessage, h, hid]

lemma processMessage_of_requestError (message idv : JValue) (c : Int) (em : List Nat)
    (h : handleMessage message = .requestError c em)
    (hid : dictGet message idK = some idv) :
    processMessage message = .emit [errorResponse idv c em] := by
  simp only [processMessage, h, hid]

lemma processMessage_of_none (message : JValue)
    (h : handleMessage message = .ok none) :
    processMessage message = .emit [] := by
  simp only [processMessage, h]

lemma hasKey_success_result (idv r : JValue) :
    hasKeyB (successResponse idv r) resultK = true := by
  simp only [hasKeyB, successResponse, objOf, dictGet_cons]
  rw [if_neg (by decide), if_neg (by decide)]
  simp

lemma hasKey_success_error (idv r : JValue) :
    hasKeyB (successResponse idv r) errorK = false := by
  simp only [hasKeyB, successResponse, objOf, dictGet_cons]
  rw [if_neg (by decide), if_neg (by decide), if_neg (by decide)]
  simp [dictGet]

lemma hasKey_error_result (idv : JValue) (c : Int) (em : List Nat) :
    hasKeyB (errorResponse idv c em) resultK = false := by
  simp only [hasKeyB, errorResponse, objOf, dictGet_cons]
  rw [if_neg (by decide), if_neg (by decide), if_neg (by decide)]
  simp [dictGet]

lemma hasKey_error_error (idv : JValue) (c : Int) (em : List Nat) :
    hasKeyB (errorResponse idv c em) errorK = true := by
  simp only [hasKeyB, errorResponse, objOf, dictGet_cons]
  rw [if_neg (by decide), if_neg (by decide)]
  simp

/-! ### Claims about the dispatch step -/

/-- Claim C1, counterexample: the Request `c1msg` has an id and a method
present in the dispatch table, yet one pass of the loop emits no Response at
all, because the `build/initialized` handler returns `None` and `run` only
replies when the handler result is not `None`. -/
theorem claim1_counterexample :
    hasKeyB c1msg idK = true ∧ pystr "build/initialized" ∈ tableMethods ∧
      processMessage c1msg = .emit [] := by decide

/-- Claim C1 as amended: for every inbound Request carrying a `params` key
whose method is in the dispatch table and is not one of the four methods
whose default handler returns `None`, one pass of the receive-dispatch loop
emits exactly one Response, and its id equals the id of the Request. -/
theorem claim1_known_request_one_response (message idv : JValue) (s : List Nat) (pv : JValue)
    (hm : dictGet message methodK = some (.str s))
    (hp : dictGet message paramsK = some pv)
    (hid : dictGet message idK = some idv)
    (hs : s ∈ tableMethods) (hns : s ∉ noReplyMethods) :
    ∃ resp, processMessage message = .emit [resp] ∧ dictGet resp idK = some idv := by
  simp only [tableMethods, List.mem_cons, List.mem_singleton] at hs
  rcases hs with h | h | h | h | h | h | h | h | h | h
  · subst h; exact absurd (by decide) hns
  · subst h
    exact ⟨_, processMessage_of_result _ _ _ (handleMessage_initializeMethod _ _ hm hp) hid,
      dictGet_success_id _ _⟩
  · subst h; exact absurd (by decide) hns
  · subst h
    exact ⟨_, processMessage_of_result _ _ _ (handleMessage_shutdown _ _ hm hp) hid,
      dictGet_success_id _ _⟩
  · subst h
    exact ⟨_, processMessage_of_requestError _ _ _ _ (handleMessage_sources _ _ hm hp) hid,
      dictGet_error_id _ _ _⟩
  · subst h; exact absurd (by decide) hns
  · subst h
    exact ⟨_, processMessage_of_requestError _ _ _ _ (handleMessage_sourceKitOptions _ _ hm hp) hid,
      dictGet_error_id _ _ _⟩
  · subst h; exact absurd (by decide) hns
  · subst h
    exact ⟨_, processMessage_of_requestError _ _ _ _ (handleMessage_buildTargets _ _ hm hp) hid,
      dictGet_error_id _ _ _⟩
  · exact absurd h (List.not_mem_nil s)

/-- Witness for the amended claim C1 on a concrete `build/shutdown` request. -/
theorem claim1_witness :
    ∃ resp, processMessage c1wmsg = .emit [resp] ∧ dictGet resp idK = some (.num 7) :=
  claim1_known_request_one_response c1wmsg (.num 7) (pystr "build/shutdown") .objNil
    (by decide) (by decide) (by decide) (by decide) (by decide)

/-- Claim C3: a Request (id present, params present) whose method string is
not in the dispatch table is answered by exactly one error Response with code
-32601 whose message names the unknown method and whose id matches; the
outcome is `emit`, so the loop continues. -/
theorem claim3_unknown_method_error_response (message idv : JValue) (s : List Nat) (pv : JValue)
    (hm : dictGet message methodK = some (.str s))
    (hp : dictGet message paramsK = some pv)
    (hid : dictGet message idK = some idv)
    (hunk : s ∉ tableMethods) :
    processMessage message =
      .emit [errorResponse idv (-32601) (pystr "Method not found: " ++ s)] := by
  have h := handleMessage_unknown message s pv hm hp hunk
  simp only [hasKeyB, hid, Option.isSome_some, if_true] at h
  exact processMessage_of_requestError _ _ _ _ h hid

/-- Witness for claim C3 on a concrete request with unknown method. -/
theorem claim3_witness :
    processMessage c3msg =
      .emit [errorResponse (.num 5) (-32601) (pystr "Method not found: " ++ pystr "foo/bar")] :=
  claim3_unknown_method_error_response c3msg (.num 5) (pystr "foo/bar") .objNil
    (by decide) (by decide) (by decide) (by decide)

/-- Claim C4: a handler-raised `RequestError` while serving a Request is
mapped one to one onto an error Response carrying exactly the handler code
and message and the original id, and the loop continues; in particular the
default `buildtarget_sources` handler raises exactly code -32601 with the
text naming the unimplemented method. -/
theorem claim4_request_error_to_error_response :
    (∀ (message idv : JValue) (c : Int) (em : List Nat),
        handleMessage message = .requestError c em → dictGet message idK = some idv →
        processMessage message = .emit [errorResponse idv c em]) ∧
    (∀ (message pv : JValue),
        dictGet message methodK = some (.str (pystr "buildTarget/sources")) →
        dictGet message paramsK = some pv →
        handleMessage message =
          .requestError (-32601) (pystr "\x27buildTarget/sources\x27 not implemented")) := by
  constructor
  · intro message idv c em h hid
    exact processMessage_of_requestError _ _ _ _ h hid
  · intro message pv hm hp
    exact handleMessage_sources _ _ hm hp

/-- Witness for claim C4 on a concrete `buildTarget/sources` request. -/
theorem claim4_witness :
    handleMessage c4msg =
      .requestError (-32601) (pystr "\x27buildTarget/sources\x27 not implemented") ∧
    processMessage c4msg =
      .emit [errorResponse (.num 3) (-32601) (pystr "\x27buildTarget/sources\x27 not implemented")] :=
  ⟨claim4_request_error_to_error_response.2 c4msg .objNil (by decide) (by decide),
   claim4_request_error_to_error_response.1 c4msg (.num 3) (-32601)
     (pystr "\x27buildTarget/sources\x27 not implemented") (by decide) (by decide)⟩

/-- Claim C5: when a handler raises `RequestError` while the inbound message
has no id, nothing is emitted and the step crashes (the `KeyError` from
`message["id"]` inside the except branch); at the loop level the whole run
aborts fatally with an empty output. -/
theorem claim5_notification_error_fatal_no_output :
    (∀ (message : JValue) (c : Int) (em : List Nat),
        handleMessage message = .requestError c em → dictGet message idK = none →
        processMessage message = .crashed) ∧
    (∀ (s rest : List Nat) (message : JValue) (c : Int) (em : List Nat),
        receiveMessage s = .msg message rest →
        handleMessage message = .requestError c em → dictGet message idK = none →
        run s = .fatal []) := by
  have step : ∀ (message : JValue) (c : Int) (em : List Nat),
      handleMessage message = .requestError c em → dictGet message idK = none →
      processMessage message = .crashed := by
    intro message c em h hid
    simp only [processMessage, h, hid]
  refine ⟨step, ?_⟩
  intro s rest message c em hrecv h hid
  rw [run]
  simp only [runAux, hrecv, step message c em h hid]

/-- Witness for claim C5: the concrete notification crashes the step and a
stream holding exactly its frame makes the run abort with no output. -/
theorem claim5_witness :
    processMessage c5msg = .crashed ∧ run (sendRawMessage c5msg) = .fatal [] :=
  ⟨claim5_notification_error_fatal_no_output.1 c5msg (-32601)
     (pystr "\x27buildTarget/sources\x27 not implemented") (by decide) (by decide),
   claim5_notification_error_fatal_no_output.2 (sendRawMessage c5msg) [] c5msg (-32601)
     (pystr "\x27buildTarget/sources\x27 not implemented") (by decide) (by decide) (by decide)⟩

/-- Claim C7: a Notification (no id, params present) with a method not in
the dispatch table produces no outbound message, and the loop continues. -/
theorem claim7_unknown_notification_silent (message : JValue) (s : List Nat) (pv : JValue)
    (hm : dictGet message methodK = some (.str s))
    (hp : dictGet message paramsK = some pv)
    (hid : dictGet message idK = none)
    (hunk : s ∉ tableMethods) :
    processMessage message = .emit [] := by
  have h := handleMessage_unknown message s pv hm hp hunk
  simp only [hasKeyB, hid, Option.isSome_none, if_false, Bool.false_eq_true] at h
  exact processMessage_of_none _ h

/-- Witness for claim C7 on a concrete unknown notification. -/
theorem claim7_witness : processMessage c7msg = .emit [] :=
  claim7_unknown_notification_silent c7msg (pystr "foo/bar") .objNil
    (by decide) (by decide) (by decide) (by decide)

/-- Claim C8: every message a dispatch step emits is a Response that carries
exactly one of the `result` and `error` keys, and its id is exactly the id of
the message that triggered it (in particular that message had an id); and the
dict built by `send_notification` never carries an id key. -/
theorem claim8_outbound_message_invariants :
    (∀ (message : JValue) (out : List JValue),
        processMessage message = .emit out → ∀ r ∈ out,
          ((hasKeyB r resultK = true ∧ hasKeyB r errorK = false) ∨
            (hasKeyB r resultK = false ∧ hasKeyB r errorK = true)) ∧
          dictGet r idK = dictGet message idK ∧ (dictGet r idK).isSome = true) ∧
    (∀ (method : List Nat) (params : JValue),
        hasKeyB (sendNotificationMessage method params) idK = false) := by
  constructor
  · intro message out hpm r hr
    cases h : handleMessage message with
    | ok res =>
      cases res with
      | none =>
        simp only [processMessage, h] at hpm
        cases hpm
        simp at hr
      | some result =>
        simp only [processMessage, h] at hpm
        cases hid : dictGet message idK with
        | none => rw [hid] at hpm; cases hpm
        | some idv =>
          rw [hid] at hpm
          cases hpm
          simp only [List.mem_singleton] at hr
          subst hr
          refine ⟨Or.inl ⟨hasKey_success_result _ _, hasKey_success_error _ _⟩, ?_, ?_⟩
          · rw [dictGet_success_id]
          · rw [dictGet_success_id]; rfl
    | requestError c em =>
      simp only [processMessage, h] at hpm
      cases hid : dictGet message idK with
      | none => rw [hid] at hpm; cases hpm
      | some idv =>
        rw [hid] at hpm
        cases hpm
        simp only [List.mem_singleton] at hr
        subst hr
        refine ⟨Or.inr ⟨hasKey_error_result _ _ _, hasKey_error_error _ _ _⟩, ?_, ?_⟩
        · rw [dictGet_error_id]
        · rw [dictGet_error_id]; rfl
    | crash =>
      simp only [processMessage, h] at hpm
      cases hpm
  · intro method params
    simp only [hasKeyB, sendNotificationMessage, objOf, dictGet_cons]
    rw [if_neg (by decide), if_neg (by decide), if_neg (by decide)]
    simp [dictGet]

/-- Witness for claim C8 on the Response to a concrete request and on a
concrete server notification. -/
theorem claim8_witness :
    (((hasKeyB (successResponse (.num 9) .objNil) resultK = true ∧
        hasKeyB (successResponse (.num 9) .objNil) errorK = false) ∨
      (hasKeyB (successResponse (.num 9) .objNil) resultK = false ∧
        hasKeyB (successResponse (.num 9) .objNil) errorK = true)) ∧
      dictGet (successResponse (.num 9) .objNil) idK = dictGet c8msg idK ∧
      (dictGet (successResponse (.num 9) .objNil) idK).isSome = true) ∧
    hasKeyB (sendNotificationMessage (pystr "buildTarget/didChange") .objNil) idK = false :=
  ⟨claim8_outbound_message_invariants.1 c8msg [successResponse (.num 9) .objNil]
     (by decide) (successResponse (.num 9) .objNil) (by simp),
   claim8_outbound_message_invariants.2 (pystr "buildTarget/didChange") .objNil⟩

/-- Claim C10: for the four dispatch-table methods whose default handler
returns `None` (`build/exit`, `build/initialized`,
`textDocument/registerForChanges`, `workspace/didChangeWatchedFiles`) no
Response is written, whether or not the message carries an id. -/
theorem claim10_none_result_no_response (message : JValue) (s : List Nat) (pv : JValue)
    (hm : dictGet message methodK = some (.str s))
    (hp : dictGet message paramsK = some pv)
    (hs : s ∈ noReplyMethods) :
    processMessage message = .emit [] := by
  simp only [noReplyMethods, List.mem_cons, List.mem_singleton] at hs
  rcases hs with h | h | h | h | h
  · subst h; exact processMessage_of_none _ (handleMessage_exit _ _ hm hp)
  · subst h; exact processMessage_of_none _ (handleMessage_initialized _ _ hm hp)
  · subst h; exact processMessage_of_none _ (handleMessage_registerForChanges _ _ hm hp)
  · subst h; exact processMessage_of_none _ (handleMessage_didChangeWatchedFiles _ _ hm hp)
  · exact absurd h (List.not_mem_nil s)

/-- Witness for claim C10 on a concrete no-reply-method Request. -/
theorem claim10_witness : processMessage c10msg = .emit [] :=
  claim10_none_result_no_response c10msg (pystr "textDocument/registerForChanges") .objNil
    (by decide) (by decide) (by decide)

/-! ### Decimal and hexadecimal digit lemmas -/

lemma digitsVal_append (l : List Nat) (c : Nat) :
    digitsVal (l ++ [c]) = digitsVal l * 10 + (c - 48) := by
  simp [digitsVal, List.foldl_append]

lemma natToDecAux_sound : ∀ fuel n, n < 10 ^ fuel → digitsVal (natToDecAux fuel n) = n := by
  intro fuel
  induction fuel with
  | zero =>
    intro n hn
    interval_cases n
    rfl
  | succ f ih =>
    intro n hn
    by_cases h0 : n = 0
    · subst h0; rfl
    · rw [natToDecAux, if_neg h0, digitsVal_append, ih (n / 10) ?_]
      · omega
      · rw [pow_succ] at hn
        omega

lemma natToDecAux_digits : ∀ fuel n c, c ∈ natToDecAux fuel n → 48 ≤ c ∧ c ≤ 57 := by
  intro fuel
  induction fuel with
  | zero => simp [natToDecAux]
  | succ f ih =>
    intro n c hc
    rw [natToDecAux] at hc
    by_cases h0 : n = 0
    · rw [if_pos h0] at hc; simp at hc
    · rw [if_neg h0] at hc
      rcases List.mem_append.mp hc with h | h
      · exact ih _ _ h
      · simp at h; omega

lemma natToDecimal_digits (n : Nat) : ∀ c ∈ natToDecimal n, 48 ≤ c ∧ c ≤ 57 := by
  intro c h
  rw [natToDecimal] at h
  by_cases h0 : n = 0
  · rw [if_pos h0] at h; simp at h; omega
  · rw [if_neg h0] at h; exact natToDecAux_digits _ _ _ h

lemma natToDecimal_ne_nil (n : Nat) : natToDecimal n ≠ [] := by
  rw [natToDecimal]
  by_cases h0 : n = 0
  · rw [if_pos h0]; simp
  · rw [if_neg h0, natToDecAux, if_neg h0]; simp

lemma digitsVal_natToDecimal (n : Nat) : digitsVal (natToDecimal n) = n := by
  rw [natToDecimal]
  by_cases h0 : n = 0
  · rw [if_pos h0, h0]; rfl
  · rw [if_neg h0]
    refine natToDecAux_sound (n + 1) n ?_
    calc n < 10 ^ n := Nat.lt_pow_self (by norm_num) n
    _ ≤ 10 ^ (n + 1) := Nat.pow_le_pow_right (by norm_num) (by omega)

lemma natToDecimal_cons (n : Nat) :
    ∃ d ds, natToDecimal n = d :: ds ∧ 48 ≤ d ∧ d ≤ 57 := by
  cases h : natToDecimal n with
  | nil => exact absurd h (natToDecimal_ne_nil n)
  | cons d ds =>
    have hd := natToDecimal_digits n d (by rw [h]; exact List.mem_cons_self d ds)
    exact ⟨d, ds, rfl, hd.1, hd.2⟩

lemma hexVal_hexDigit : ∀ d, d < 16 → hexVal (hexDigit d) = some d := by decide

lemma parseHex4_hex4 (n : Nat) (rest : List Nat) (h : n < 65536) :
    parseHex4 (hex4 n ++ rest) = some (n, rest) := by
  have h1 : n / 4096 < 16 := by omega
  have h2 : n / 256 % 16 < 16 := Nat.mod_lt _ (by norm_num)
  have h3 : n / 16 % 16 < 16 := Nat.mod_lt _ (by norm_num)
  have h4 : n % 16 < 16 := Nat.mod_lt _ (by norm_num)
  simp only [hex4, List.cons_append, List.nil_append, parseHex4,
    hexVal_hexDigit _ h1, hexVal_hexDigit _ h2, hexVal_hexDigit _ h3, hexVal_hexDigit _ h4]
  have : ((n / 4096 * 16 + n / 256 % 16) * 16 + n / 16 % 16) * 16 + n % 16 = n := by omega
  rw [this]

lemma spanDigits_append (ds rest : List Nat) (hds : ∀ c ∈ ds, 48 ≤ c ∧ c ≤ 57)
    (hrest : noDigitHead rest) : spanDigits (ds ++ rest) = (ds, rest) := by
  induction ds with
  | nil =>
    cases rest with
    | nil => rfl
    | cons c r =>
      simp only [List.nil_append, spanDigits]
      rw [if_neg]
      simp only [noDigitHead] at hrest
      omega
  | cons d ds ih =>
    simp only [List.cons_append, spanDigits, List.append_eq]
    rw [if_pos (hds d (List.mem_cons_self d ds)),
      ih (fun c hc => hds c (List.mem_cons_of_mem d hc))]

lemma parseNumber_intToDec (n : Int) (rest : List Nat) (hrest : noDigitHead rest) :
    parseNumber (intToDec n ++ rest) = some (.num n, rest) := by
  cases n with
  | ofNat m =>
    obtain ⟨d, ds, hnd, hd1, hd2⟩ := natToDecimal_cons m
    have hall : ∀ c ∈ d :: ds, 48 ≤ c ∧ c ≤ 57 := by rw [← hnd]; exact natToDecimal_digits m
    have hsp := spanDigits_append (d :: ds) rest hall hrest
    rw [List.cons_append] at hsp
    simp only [intToDec, hnd, List.cons_append, parseNumber]
    rw [if_neg (by omega), hsp]
    show some (JValue.num (digitsVal (d :: ds) : Int), rest) = _
    rw [show digitsVal (d :: ds) = m from by rw [← hnd]; exact digitsVal_natToDecimal m]
    rfl
  | negSucc m =>
    obtain ⟨d, ds, hnd, hd1, hd2⟩ := natToDecimal_cons (m + 1)
    have hall : ∀ c ∈ d :: ds, 48 ≤ c ∧ c ≤ 57 := by rw [← hnd]; exact natToDecimal_digits (m + 1)
    have hsp := spanDigits_append (d :: ds) rest hall hrest
    simp only [intToDec, hnd, List.cons_append, parseNumber]
    rw [if_pos trivial, show d :: (ds ++ rest) = (d :: ds) ++ rest from rfl, hsp]
    show some (JValue.num (-(digitsVal (d :: ds) : Int)), rest) = _
    rw [show digitsVal (d :: ds) = m + 1 from by rw [← hnd]; exact digitsVal_natToDecimal (m + 1)]
    congr 2

/-! ### String escaping round-trip -/

lemma escChar_length_ge (c : Nat) : 1 ≤ (escChar c).length := by
  rw [escChar]
  split_ifs <;> simp [hex4]

lemma escStr_length_ge : ∀ s : List Nat, s.length ≤ (escStr s).length := by
  intro s
  induction s with
  | nil => simp [escStr]
  | cons c r ih =>
    have h1 := escChar_length_ge c
    simp only [escStr, List.length_cons, List.length_append]
    omega

lemma wfStr_cons (c : Nat) (t : List Nat) (h : wfStr (c :: t) = true) :
    (c < 1114112 ∧ ¬(55296 ≤ c ∧ c ≤ 57343)) ∧ wfStr t = true := by
  simp only [wfStr, List.all_cons, Bool.and_eq_true, decide_eq_true_eq] at h ⊢
  exact h

lemma escStr_cons (c : Nat) (s : List Nat) : escStr (c :: s) = escChar c ++ escStr s := rfl

lemma pS_step_bs (g : Nat) (X : List Nat) :
    parseStringAux (g + 1) (92 :: 92 :: X) = (parseStringAux g X).map (fun p => (92 :: p.1, p.2)) := rfl

lemma pS_step_q (g : Nat) (X : List Nat) :
    parseStringAux (g + 1) (92 :: 34 :: X) = (parseStringAux g X).map (fun p => (34 :: p.1, p.2)) := rfl

lemma pS_step_b (g : Nat) (X : List Nat) :
    parseStringAux (g + 1) (92 :: 98 :: X) = (parseStringAux g X).map (fun p => (8 :: p.1, p.2)) := rfl

lemma pS_step_t (g : Nat) (X : List Nat) :
    parseStringAux (g + 1) (92 :: 116 :: X) = (parseStringAux g X).map (fun p => (9 :: p.1, p.2)) := rfl

lemma pS_step_n (g : Nat) (X : List Nat) :
    parseStringAux (g + 1) (92 :: 110 :: X) = (parseStringAux g X).map (fun p => (10 :: p.1, p.2)) := rfl

lemma pS_step_f (g : Nat) (X : List Nat) :
    parseStringAux (g + 1) (92 :: 102 :: X) = (parseStringAux g X).map (fun p => (12 :: p.1, p.2)) := rfl

lemma pS_step_r (g : Nat) (X : List Nat) :
    parseStringAux (g + 1) (92 :: 114 :: X) = (parseStringAux g X).map (fun p => (13 :: p.1, p.2)) := rfl

lemma pS_step_lit (g c : Nat) (X : List Nat) (h34 : c ≠ 34) (h92 : c ≠ 92) (h32 : ¬c < 32) :
    parseStringAux (g + 1) (c :: X) = (parseStringAux g X).map (fun p => (c :: p.1, p.2)) := by
  conv_lhs => rw [parseStringAux.eq_def]
  simp only [if_neg h34, if_neg h92, if_neg h32]

lemma pS_step_u (g u : Nat) (hu : u < 65536) (hns : ¬(55296 ≤ u ∧ u ≤ 56319)) (X : List Nat) :
    parseStringAux (g + 1) (92 :: 117 :: (hex4 u ++ X)) =
      (parseStringAux g X).map (fun p => (u :: p.1, p.2)) := by
  rw [parseStringAux]
  simp only [if_true]
  rw [parseHex4_hex4 u _ hu]
  simp only []
  rw [if_neg hns]
  rw [if_neg (show (92 : Nat) ≠ 34 from by decide)]

lemma pS_step_surr (g u u2 : Nat) (hu : 55296 ≤ u ∧ u ≤ 56319) (hu2 : 56320 ≤ u2 ∧ u2 ≤ 57343)
    (X : List Nat) :
    parseStringAux (g + 1) (92 :: 117 :: (hex4 u ++ (92 :: 117 :: (hex4 u2 ++ X)))) =
      (parseStringAux g X).map
        (fun p => ((65536 + (u - 55296) * 1024 + (u2 - 56320)) :: p.1, p.2)) := by
  rw [parseStringAux]
  simp only [if_true]
  rw [parseHex4_hex4 u _ (by omega)]
  simp only []
  rw [if_pos hu]
  rw [parseHex4_hex4 u2 _ (by omega)]
  simp only []
  rw [if_pos hu2]
  rw [if_neg (show (92 : Nat) ≠ 34 from by decide)]

lemma parseStringAux_escStr :
    ∀ (s : List Nat) (fuel : Nat) (rest : List Nat), wfStr s = true → s.length < fuel →
      parseStringAux fuel (escStr s ++ (34 :: rest)) = some (s, rest) := by
  intro s
  induction s with
  | nil =>
    intro fuel rest _ hf
    obtain ⟨g, rfl⟩ : ∃ g, fuel = g + 1 := ⟨fuel - 1, by omega⟩
    rfl
  | cons c t ih =>
    intro fuel rest hwf hf
    obtain ⟨g, rfl⟩ : ∃ g, fuel = g + 1 := ⟨fuel - 1, by omega⟩
    obtain ⟨⟨hlt, hsur⟩, hwt⟩ := wfStr_cons c t hwf
    have hlen : t.length < g := by
      simp only [List.length_cons] at hf
      omega
    have IH := ih g rest hwt hlen
    rw [escStr_cons, List.append_assoc]
    by_cases h92 : c = 92
    · subst h92
      rw [show escChar 92 = [92, 92] from rfl]
      simp only [List.cons_append, List.nil_append]
      rw [pS_step_bs, IH]
      rfl
    · by_cases h34 : c = 34
      · subst h34
        rw [show escChar 34 = [92, 34] from rfl]
        simp only [List.cons_append, List.nil_append]
        rw [pS_step_q, IH]
        rfl
      · by_cases h8 : c = 8
        · subst h8
          rw [show escChar 8 = [92, 98] from rfl]
          simp only [List.cons_append, List.nil_append]
          rw [pS_step_b, IH]
          rfl
        · by_cases h9 : c = 9
          · subst h9
            rw [show escChar 9 = [92, 116] from rfl]
            simp only [List.cons_append, List.nil_append]
            rw [pS_step_t, IH]
            rfl
          · by_cases h10 : c = 10
            · subst h10
              rw [show escChar 10 = [92, 110] from rfl]
              simp only [List.cons_append, List.nil_append]
              rw [pS_step_n, IH]
              rfl
            · by_cases h12 : c = 12
              · subst h12
                rw [show escChar 12 = [92, 102] from rfl]
                simp only [List.cons_append, List.nil_append]
                rw [pS_step_f, IH]
                rfl
              · by_cases h13 : c = 13
                · subst h13
                  rw [show escChar 13 = [92, 114] from rfl]
                  simp only [List.cons_append, List.nil_append]
                  rw [pS_step_r, IH]
                  rfl
                · by_cases hpr : 32 ≤ c ∧ c ≤ 126
                  · rw [show escChar c = [c] from by
                      rw [escChar, if_neg h92, if_neg h34, if_neg h8, if_neg h9, if_neg h10,
                        if_neg h12, if_neg h13, if_pos hpr]]
                    simp only [List.cons_append, List.nil_append]
                    rw [pS_step_lit g c _ h34 h92 (by omega), IH]
                    rfl
                  · by_cases hsm : c < 65536
                    · rw [show escChar c = 92 :: 117 :: hex4 c from by
                        rw [escChar, if_neg h92, if_neg h34, if_neg h8, if_neg h9, if_neg h10,
                          if_neg h12, if_neg h13, if_neg hpr, if_pos hsm]]
                      simp only [List.cons_append, List.append_assoc]
                      rw [pS_step_u g c hsm (by omega) _, IH]
                      rfl
                    · rw [show escChar c =
                          92 :: 117 :: hex4 (55296 + (c - 65536) / 1024) ++
                            (92 :: 117 :: hex4 (56320 + (c - 65536) % 1024)) from by
                        rw [escChar, if_neg h92, if_neg h34, if_neg h8, if_neg h9, if_neg h10,
                          if_neg h12, if_neg h13, if_neg hpr, if_neg hsm]]
                      simp only [List.cons_append, List.append_assoc]
                      rw [pS_step_surr g (55296 + (c - 65536) / 1024) (56320 + (c - 65536) % 1024)
                        (by omega) (by omega) _, IH]
                      have hc : 65536 + (55296 + (c - 65536) / 1024 - 55296) * 1024 +
                          (56320 + (c - 65536) % 1024 - 56320) = c := by omega
                      rw [hc]
                      rfl

/-! ### Serializer head shapes and whitespace -/

lemma serTop_head (v : JValue) : ∃ c t, serV .top v = c :: t ∧
    (c = 110 ∨ c = 116 ∨ c = 102 ∨ c = 34 ∨ c = 91 ∨ c = 123 ∨ c = 45 ∨ (48 ≤ c ∧ c ≤ 57)) := by
  cases v with
  | null => exact ⟨110, [117, 108, 108], rfl, by omega⟩
  | bool b =>
    cases b
    · exact ⟨102, [97, 108, 115, 101], rfl, by omega⟩
    · exact ⟨116, [114, 117, 101], rfl, by omega⟩
  | num n =>
    cases n with
    | ofNat m =>
      obtain ⟨d, ds, hnd, h1, h2⟩ := natToDecimal_cons m
      exact ⟨d, ds, by simp [serV, intToDec, hnd], by omega⟩
    | negSucc m => exact ⟨45, natToDecimal (m + 1), by simp [serV, intToDec], by omega⟩
  | str s => exact ⟨34, escStr s ++ [34], rfl, by omega⟩
  | arrNil => exact ⟨91, [93], rfl, by omega⟩
  | arrCons h t => exact ⟨91, _, rfl, by omega⟩
  | objNil => exact ⟨123, [125], rfl, by omega⟩
  | objCons k v t => exact ⟨123, _, rfl, by omega⟩

lemma skipWs_serTop (v : JValue) (x : List Nat) :
    skipWs (serV .top v ++ x) = serV .top v ++ x := by
  obtain ⟨c, t, hc, hcl⟩ := serTop_head v
  rw [hc]
  simp only [List.cons_append, skipWs]
  rw [if_neg (by omega)]
  rfl

lemma skipWs_32 (l : List Nat) : skipWs (32 :: l) = skipWs l := rfl

lemma noDigit_serATail (t : JValue) (rest : List Nat) :
    noDigitHead (serV .atail t ++ 93 :: rest) := by
  cases t <;> simp [serV, noDigitHead]

lemma noDigit_serOTail (t : JValue) (rest : List Nat) :
    noDigitHead (serV .otail t ++ 125 :: rest) := by
  cases t <;> simp [serV, noDigitHead]

/-! ### Spine lemmas -/

lemma jsz_pos (v : JValue) : 1 ≤ jsz v := by
  cases v <;> simp only [jsz] <;> omega

lemma wf_isArrSpine : ∀ v : JValue, wfV v = true → isArrLink v = true → isArrSpine v = true := by
  intro v
  induction v with
  | arrCons hd tl ih1 ih2 =>
    intro hw _
    simp only [wfV, Bool.and_eq_true] at hw
    simp only [isArrSpine]
    exact ih2 hw.1.2 hw.2
  | arrNil => intro _ _; rfl
  | null => intro _ h; exact absurd h (by simp [isArrLink])
  | bool b => intro _ h; exact absurd h (by simp [isArrLink])
  | num n => intro _ h; exact absurd h (by simp [isArrLink])
  | str s => intro _ h; exact absurd h (by simp [isArrLink])
  | objNil => intro _ h; exact absurd h (by simp [isArrLink])
  | objCons k v t ih1 ih2 => intro _ h; exact absurd h (by simp [isArrLink])

lemma wf_isObjSpine : ∀ v : JValue, wfV v = true → isObjLink v = true → isObjSpine v = true := by
  intro v
  induction v with
  | objCons k val tl ih1 ih2 =>
    intro hw _
    simp only [wfV, Bool.and_eq_true] at hw
    simp only [isObjSpine]
    exact ih2 hw.1.1.2 hw.1.2
  | objNil => intro _ _; rfl
  | null => intro _ h; exact absurd h (by simp [isObjLink])
  | bool b => intro _ h; exact absurd h (by simp [isObjLink])
  | num n => intro _ h; exact absurd h (by simp [isObjLink])
  | str s => intro _ h; exact absurd h (by simp [isObjLink])
  | arrNil => intro _ h; exact absurd h (by simp [isObjLink])
  | arrCons hd tl ih1 ih2 => intro _ h; exact absurd h (by simp [isObjLink])

lemma listToArr_itemsOf : ∀ v : JValue, isArrSpine v = true → listToArr (itemsOf v) = v := by
  intro v
  induction v with
  | arrCons hd tl ih1 ih2 =>
    intro hs
    simp only [isArrSpine] at hs
    simp only [itemsOf, listToArr]
    rw [ih2 hs]
  | arrNil => intro _; rfl
  | null => intro h; exact absurd h (by simp [isArrSpine])
  | bool b => intro h; exact absurd h (by simp [isArrSpine])
  | num n => intro h; exact absurd h (by simp [isArrSpine])
  | str s => intro h; exact absurd h (by simp [isArrSpine])
  | objNil => intro h; exact absurd h (by simp [isArrSpine])
  | objCons k v t ih1 ih2 => intro h; exact absurd h (by simp [isArrSpine])

/-! ### Dict construction lemmas -/

lemma dictGet_objSnoc_none (d : JValue) (k key : List Nat) (v : JValue)
    (hd : (dictGet d key).isNone = true) (hne : key ≠ k) :
    (dictGet (objSnoc d k v) key).isNone = true := by
  induction d with
  | objCons k0 v0 t ihv iht =>
    rw [dictGet_cons] at hd
    by_cases hk : k0 = key
    · rw [if_pos hk] at hd
      simp at hd
    · rw [if_neg hk] at hd
      simp only [objSnoc, dictGet_cons, if_neg hk]
      exact iht hd
  | objNil =>
    simp only [objSnoc, dictGet_cons]
    rw [if_neg (fun h => hne h.symm)]
    rfl
  | null =>
    simp only [objSnoc, dictGet_cons]
    rw [if_neg (fun h => hne h.symm)]
    rfl
  | bool b =>
    simp only [objSnoc, dictGet_cons]
    rw [if_neg (fun h => hne h.symm)]
    rfl
  | num n =>
    simp only [objSnoc, dictGet_cons]
    rw [if_neg (fun h => hne h.symm)]
    rfl
  | str s =>
    simp only [objSnoc, dictGet_cons]
    rw [if_neg (fun h => hne h.symm)]
    rfl
  | arrNil =>
    simp only [objSnoc, dictGet_cons]
    rw [if_neg (fun h => hne h.symm)]
    rfl
  | arrCons hd2 tl ih1 ih2 =>
    simp only [objSnoc, dictGet_cons]
    rw [if_neg (fun h => hne h.symm)]
    rfl

lemma isObjSpine_objSnoc (d : JValue) (k : List Nat) (v : JValue)
    (hd : isObjSpine d = true) : isObjSpine (objSnoc d k v) = true := by
  induction d with
  | objCons k0 v0 t ihv iht =>
    simp only [isObjSpine] at hd
    simp only [objSnoc, isObjSpine]
    exact iht hd
  | objNil => rfl
  | null => exact absurd hd (by simp [isObjSpine])
  | bool b => exact absurd hd (by simp [isObjSpine])
  | num n => exact absurd hd (by simp [isObjSpine])
  | str s => exact absurd hd (by simp [isObjSpine])
  | arrNil => exact absurd hd (by simp [isObjSpine])
  | arrCons hd2 tl ih1 ih2 => exact absurd hd (by simp [isObjSpine])

lemma objConcat_nil : ∀ d : JValue, isObjSpine d = true → objConcat d .objNil = d := by
  intro d
  induction d with
  | objCons k0 v0 t ihv iht =>
    intro hd
    simp only [isObjSpine] at hd
    simp only [objConcat]
    rw [iht hd]
  | objNil => intro _; rfl
  | null => intro h; exact absurd h (by simp [isObjSpine])
  | bool b => intro h; exact absurd h (by simp [isObjSpine])
  | num n => intro h; exact absurd h (by simp [isObjSpine])
  | str s => intro h; exact absurd h (by simp [isObjSpine])
  | arrNil => intro h; exact absurd h (by simp [isObjSpine])
  | arrCons hd2 tl ih1 ih2 => intro h; exact absurd h (by simp [isObjSpine])

lemma objConcat_objSnoc (d : JValue) (k : List Nat) (v u : JValue)
    (hd : isObjSpine d = true) :
    objConcat (objSnoc d k v) u = objConcat d (.objCons k v u) := by
  induction d with
  | objCons k0 v0 t ihv iht =>
    simp only [isObjSpine] at hd
    simp only [objSnoc, objConcat]
    rw [iht hd]
  | objNil => rfl
  | null => exact absurd hd (by simp [isObjSpine])
  | bool b => exact absurd hd (by simp [isObjSpine])
  | num n => exact absurd hd (by simp [isObjSpine])
  | str s => exact absurd hd (by simp [isObjSpine])
  | arrNil => exact absurd hd (by simp [isObjSpine])
  | arrCons hd2 tl ih1 ih2 => exact absurd hd (by simp [isObjSpine])

lemma setKeySpine_fresh (d : JValue) (k : List Nat) (v : JValue)
    (hd : isObjSpine d = true) (hfresh : (dictGet d k).isNone = true) :
    setKeySpine d k v = objSnoc d k v := by
  induction d with
  | objCons k0 v0 t ihv iht =>
    simp only [isObjSpine] at hd
    rw [dictGet_cons] at hfresh
    by_cases hk : k0 = k
    · rw [if_pos hk] at hfresh
      simp at hfresh
    · rw [if_neg hk] at hfresh
      simp only [setKeySpine, objSnoc, if_neg hk]
      rw [iht hd hfresh]
  | objNil => rfl
  | null => exact absurd hd (by simp [isObjSpine])
  | bool b => exact absurd hd (by simp [isObjSpine])
  | num n => exact absurd hd (by simp [isObjSpine])
  | str s => exact absurd hd (by simp [isObjSpine])
  | arrNil => exact absurd hd (by simp [isObjSpine])
  | arrCons hd2 tl ih1 ih2 => exact absurd hd (by simp [isObjSpine])

lemma wfV_objCons (k : List Nat) (v t : JValue) (h : wfV (.objCons k v t) = true) :
    wfStr k = true ∧ wfV v = true ∧ wfV t = true ∧ isObjLink t = true ∧
      (dictGet t k).isNone = true := by
  simp only [wfV, Bool.and_eq_true] at h
  exact ⟨h.1.1.1.1, h.1.1.1.2, h.1.1.2, h.1.2, h.2⟩

lemma wfV_arrCons (h t : JValue) (hw : wfV (.arrCons h t) = true) :
    wfV h = true ∧ wfV t = true ∧ isArrLink t = true := by
  simp only [wfV, Bool.and_eq_true] at hw
  exact ⟨hw.1.1, hw.1.2, hw.2⟩

lemma foldl_setKey_spine : ∀ u d : JValue, wfV u = true → isObjSpine u = true →
    isObjSpine d = true →
    (∀ key, (dictGet u key).isSome = true → (dictGet d key).isNone = true) →
    List.foldl (fun d kv => setKeySpine d kv.1 kv.2) d (pairsOf u) = objConcat d u := by
  intro u
  induction u with
  | objCons k v t ihv iht =>
    intro d hw hs hds hdisj
    obtain ⟨hwk, hwv, hwt, hlt, hnone⟩ := wfV_objCons k v t hw
    simp only [isObjSpine] at hs
    simp only [pairsOf, List.foldl_cons]
    have hfk : (dictGet d k).isNone = true := by
      refine hdisj k ?_
      rw [dictGet_cons, if_pos rfl]
      rfl
    rw [setKeySpine_fresh d k v hds hfk]
    rw [iht (objSnoc d k v) hwt hs (isObjSpine_objSnoc d k v hds) ?_]
    · exact objConcat_objSnoc d k v t hds
    · intro key hkey
      have hne : key ≠ k := by
        intro h
        subst h
        rw [Option.isSome_iff_ne_none] at hkey
        rw [Option.isNone_iff_eq_none] at hnone
        exact hkey hnone
      refine dictGet_objSnoc_none d k key v (hdisj key ?_) hne
      rw [dictGet_cons, if_neg (fun h => hne h.symm)]
      exact hkey
  | objNil =>
    intro d _ _ hds _
    simp only [pairsOf, List.foldl_nil]
    exact (objConcat_nil d hds).symm
  | null => intro d _ hs; exact absurd hs (by simp [isObjSpine])
  | bool b => intro d _ hs; exact absurd hs (by simp [isObjSpine])
  | num n => intro d _ hs; exact absurd hs (by simp [isObjSpine])
  | str s => intro d _ hs; exact absurd hs (by simp [isObjSpine])
  | arrNil => intro d _ hs; exact absurd hs (by simp [isObjSpine])
  | arrCons hd2 tl ih1 ih2 => intro d _ hs; exact absurd hs (by simp [isObjSpine])

lemma dictOfPairs_pairsOf (u : JValue) (hw : wfV u = true) (hs : isObjSpine u = true) :
    dictOfPairs (pairsOf u) = u := by
  rw [dictOfPairs, foldl_setKey_spine u .objNil hw hs rfl (fun key h => rfl)]
  rfl

/-! ### Scanner entry equations -/

lemma parseValue_succ_null (g : Nat) (r : List Nat) :
    parseValue (g + 1) (110 :: 117 :: 108 :: 108 :: r) = some (.null, r) := rfl

lemma parseValue_succ_true (g : Nat) (r : List Nat) :
    parseValue (g + 1) (116 :: 114 :: 117 :: 101 :: r) = some (.bool true, r) := rfl

lemma parseValue_succ_false (g : Nat) (r : List Nat) :
    parseValue (g + 1) (102 :: 97 :: 108 :: 115 :: 101 :: r) = some (.bool false, r) := rfl

lemma parseValue_succ_quote (g : Nat) (r : List Nat) :
    parseValue (g + 1) (34 :: r) =
      (parseStringAux (r.length + 1) r).map (fun p => (JValue.str p.1, p.2)) := rfl

lemma parseValue_succ_arr (g : Nat) (r : List Nat) :
    parseValue (g + 1) (91 :: r) =
      (match skipWs r with
       | [] => none
       | c2 :: r2 =>
         if c2 = 93 then some (.arrNil, r2)
         else (parseArrLoop g (c2 :: r2)).map (fun p => (listToArr p.1, p.2))) := rfl

lemma parseValue_succ_obj (g : Nat) (r : List Nat) :
    parseValue (g + 1) (123 :: r) =
      (match skipWs r with
       | [] => none
       | c2 :: r2 =>
         if c2 = 125 then some (.objNil, r2)
         else (parseObjLoop g (c2 :: r2)).map (fun p => (dictOfPairs p.1, p.2))) := rfl

lemma parseValue_succ_other (g c : Nat) (r : List Nat) (h110 : c ≠ 110) (h116 : c ≠ 116)
    (h102 : c ≠ 102) (h34 : c ≠ 34) (h91 : c ≠ 91) (h123 : c ≠ 123) :
    parseValue (g + 1) (c :: r) = parseNumber (c :: r) := by
  have h : parseValue (g + 1) (c :: r) = (parsers (g + 1)).1 (c :: r) := rfl
  rw [h, parsers]
  simp only [if_neg h110, if_neg h116, if_neg h102, if_neg h34, if_neg h91, if_neg h123]

lemma parseArrLoop_succ (g : Nat) (s : List Nat) :
    parseArrLoop (g + 1) s =
      (match parseValue g s with
       | none => none
       | some (v, r) =>
         match skipWs r with
         | 93 :: r2 => some ([v], r2)
         | 44 :: r2 =>
           match parseArrLoop g (skipWs r2) with
           | none => none
           | some (vs, r3) => some (v :: vs, r3)
         | _ => none) := rfl

lemma parseObjLoop_succ (g : Nat) (s : List Nat) :
    parseObjLoop (g + 1) s =
      (match s with
       | 34 :: r =>
         match parseStringAux (r.length + 1) r with
         | none => none
         | some (k, r2) =>
           match skipWs r2 with
           | 58 :: r3 =>
             match parseValue g (skipWs r3) with
             | none => none
             | some (v, r4) =>
               match skipWs r4 with
               | 125 :: r5 => some ([(k, v)], r5)
               | 44 :: r5 =>
                 match parseObjLoop g (skipWs r5) with
                 | none => none
                 | some (ps, r6) => some ((k, v) :: ps, r6)
               | _ => none
           | _ => none
       | _ => none) := rfl

/-! ### The scanner inverts the encoder -/

theorem parse_serV : ∀ v : JValue,
    (wfV v = true → ∀ fuel rest, jsz v ≤ fuel → noDigitHead rest →
      parseValue fuel (serV .top v ++ rest) = some (v, rest)) ∧
    (wfV v = true → isArrSpine v = true →
      ∀ h : JValue, wfV h = true →
        (∀ fuel rest, jsz h ≤ fuel → noDigitHead rest →
          parseValue fuel (serV .top h ++ rest) = some (h, rest)) →
        ∀ fuel rest, jsz h + jsz v ≤ fuel →
          parseArrLoop fuel (serV .top h ++ (serV .atail v ++ 93 :: rest)) =
            some (h :: itemsOf v, rest)) ∧
    (wfV v = true → isObjSpine v = true →
      ∀ (k : List Nat) (h : JValue), wfStr k = true → wfV h = true →
        (∀ fuel rest, jsz h ≤ fuel → noDigitHead rest →
          parseValue fuel (serV .top h ++ rest) = some (h, rest)) →
        ∀ fuel rest, jsz h + jsz v ≤ fuel →
          parseObjLoop fuel
              (serStr k ++ 58 :: 32 :: (serV .top h ++ (serV .otail v ++ 125 :: rest))) =
            some ((k, h) :: pairsOf v, rest)) := by
  intro v
  induction v with
  | null =>
    refine ⟨?_, ?_, ?_⟩
    · intro _ fuel rest hf _
      obtain ⟨g, rfl⟩ : ∃ g, fuel = g + 1 := ⟨fuel - 1, by simp only [jsz] at hf; omega⟩
      rw [show serV .top JValue.null ++ rest = 110 :: 117 :: 108 :: 108 :: rest from rfl]
      exact parseValue_succ_null g rest
    · intro _ hs; exact absurd hs (by simp [isArrSpine])
    · intro _ hs; exact absurd hs (by simp [isObjSpine])
  | bool b =>
    refine ⟨?_, ?_, ?_⟩
    · intro _ fuel rest hf _
      obtain ⟨g, rfl⟩ : ∃ g, fuel = g + 1 := ⟨fuel - 1, by simp only [jsz] at hf; omega⟩
      cases b
      · rw [show serV .top (JValue.bool false) ++ rest =
          102 :: 97 :: 108 :: 115 :: 101 :: rest from rfl]
        exact parseValue_succ_false g rest
      · rw [show serV .top (JValue.bool true) ++ rest =
          116 :: 114 :: 117 :: 101 :: rest from rfl]
        exact parseValue_succ_true g rest
    · intro _ hs; exact absurd hs (by simp [isArrSpine])
    · intro _ hs; exact absurd hs (by simp [isObjSpine])
  | num n =>
    refine ⟨?_, ?_, ?_⟩
    · intro _ fuel rest hf hnd
      obtain ⟨g, rfl⟩ : ∃ g, fuel = g + 1 := ⟨fuel - 1, by simp only [jsz] at hf; omega⟩
      have hpn := parseNumber_intToDec n rest hnd
      cases n with
      | ofNat m =>
        obtain ⟨d, ds, hnd2, hd1, hd2⟩ := natToDecimal_cons m
        rw [show serV .top (JValue.num (Int.ofNat m)) = natToDecimal m from rfl, hnd2,
          List.cons_append]
        rw [show intToDec (Int.ofNat m) = natToDecimal m from rfl, hnd2,
          List.cons_append] at hpn
        rw [parseValue_succ_other g d _ (by omega) (by omega) (by omega) (by omega)
          (by omega) (by omega)]
        exact hpn
      | negSucc m =>
        rw [show serV .top (JValue.num (Int.negSucc m)) = 45 :: natToDecimal (m + 1) from rfl,
          List.cons_append]
        rw [show intToDec (Int.negSucc m) = 45 :: natToDecimal (m + 1) from rfl,
          List.cons_append] at hpn
        rw [parseValue_succ_other g 45 _ (by omega) (by omega) (by omega) (by omega)
          (by omega) (by omega)]
        exact hpn
    · intro _ hs; exact absurd hs (by simp [isArrSpine])
    · intro _ hs; exact absurd hs (by simp [isObjSpine])
  | str s =>
    refine ⟨?_, ?_, ?_⟩
    · intro hw fuel rest hf _
      simp only [wfV] at hw
      obtain ⟨g, rfl⟩ : ∃ g, fuel = g + 1 := ⟨fuel - 1, by simp only [jsz] at hf; omega⟩
      have hshape : serV .top (JValue.str s) ++ rest = 34 :: (escStr s ++ (34 :: rest)) := by
        simp [serV, serStr, List.append_assoc]
      rw [hshape, parseValue_succ_quote]
      rw [parseStringAux_escStr s _ rest hw ?_]
      · rfl
      · have h1 := escStr_length_ge s
        simp only [List.length_append, List.length_cons]
        omega
    · intro _ hs; exact absurd hs (by simp [isArrSpine])
    · intro _ hs; exact absurd hs (by simp [isObjSpine])
  | arrNil =>
    refine ⟨?_, ?_, ?_⟩
    · intro _ fuel rest hf _
      obtain ⟨g, rfl⟩ : ∃ g, fuel = g + 1 := ⟨fuel - 1, by simp only [jsz] at hf; omega⟩
      rw [show serV .top JValue.arrNil ++ rest = 91 :: 93 :: rest from rfl,
        parseValue_succ_arr]
      rfl
    · intro _ _ h hwh Ph fuel rest hf
      obtain ⟨g, rfl⟩ : ∃ g, fuel = g + 1 :=
        ⟨fuel - 1, by have := jsz_pos h; simp only [jsz] at hf; omega⟩
      rw [parseArrLoop_succ]
      rw [show serV .atail JValue.arrNil ++ 93 :: rest = 93 :: rest from rfl]
      rw [Ph g (93 :: rest) (by have := jsz_pos h; simp only [jsz] at hf; omega)
        (by simp [noDigitHead])]
      rfl
    · intro _ hs; exact absurd hs (by simp [isObjSpine])
  | arrCons hd tl ih1 ih2 =>
    refine ⟨?_, ?_, ?_⟩
    · intro hw fuel rest hf hnd
      obtain ⟨hwh, hwt, hlink⟩ := wfV_arrCons hd tl hw
      have hspine := wf_isArrSpine tl hwt hlink
      obtain ⟨g, rfl⟩ : ∃ g, fuel = g + 1 := ⟨fuel - 1, by simp only [jsz] at hf; omega⟩
      have hshape : serV .top (JValue.arrCons hd tl) ++ rest =
          91 :: (serV .top hd ++ (serV .atail tl ++ 93 :: rest)) := by
        simp [serV, List.append_assoc]
      rw [hshape, parseValue_succ_arr, skipWs_serTop hd (serV .atail tl ++ 93 :: rest)]
      obtain ⟨c, t2, hc, hcl⟩ := serTop_head hd
      rw [hc, List.cons_append]
      simp only []
      rw [if_neg (by omega : ¬c = 93)]
      rw [← List.cons_append, ← hc]
      rw [ih2.2.1 hwt hspine hd hwh (fun fuel2 rest2 hf2 hnd2 => ih1.1 hwh fuel2 rest2 hf2 hnd2)
        g rest (by have := jsz_pos hd; have := jsz_pos tl; simp only [jsz] at hf; omega)]
      simp only [Option.map_some', listToArr]
      rw [listToArr_itemsOf tl hspine]
    · intro hw hs h hwh Ph fuel rest hf
      obtain ⟨hwhd, hwt, hlink⟩ := wfV_arrCons hd tl hw
      simp only [isArrSpine] at hs
      obtain ⟨g, rfl⟩ : ∃ g, fuel = g + 1 :=
        ⟨fuel - 1, by have := jsz_pos h; simp only [jsz] at hf; omega⟩
      rw [parseArrLoop_succ]
      have hshape : serV .atail (JValue.arrCons hd tl) ++ 93 :: rest =
          44 :: 32 :: (serV .top hd ++ (serV .atail tl ++ 93 :: rest)) := by
        simp [serV, List.append_assoc]
      rw [hshape]
      rw [Ph g (44 :: 32 :: (serV .top hd ++ (serV .atail tl ++ 93 :: rest)))
        (by have := jsz_pos hd; have := jsz_pos tl; simp only [jsz] at hf; omega)
        (by simp [noDigitHead])]
      simp only []
      rw [show skipWs (44 :: 32 :: (serV .top hd ++ (serV .atail tl ++ 93 :: rest))) =
        44 :: 32 :: (serV .top hd ++ (serV .atail tl ++ 93 :: rest)) from rfl]
      simp only []
      rw [show skipWs (32 :: (serV .top hd ++ (serV .atail tl ++ 93 :: rest))) =
        serV .top hd ++ (serV .atail tl ++ 93 :: rest) from by
          rw [skipWs_32, skipWs_serTop]]
      rw [ih2.2.1 hwt hs hd hwhd (fun fuel2 rest2 hf2 hnd2 => ih1.1 hwhd fuel2 rest2 hf2 hnd2)
        g rest (by have := jsz_pos h; have := jsz_pos hd; simp only [jsz] at hf; omega)]
      rfl
    · intro _ hs; exact absurd hs (by simp [isObjSpine])
  | objNil =>
    refine ⟨?_, ?_, ?_⟩
    · intro _ fuel rest hf _
      obtain ⟨g, rfl⟩ : ∃ g, fuel = g + 1 := ⟨fuel - 1, by simp only [jsz] at hf; omega⟩
      rw [show serV .top JValue.objNil ++ rest = 123 :: 125 :: rest from rfl,
        parseValue_succ_obj]
      rfl
    · intro _ hs; exact absurd hs (by simp [isArrSpine])
    · intro _ _ k h hwk hwh Ph fuel rest hf
      obtain ⟨g, rfl⟩ : ∃ g, fuel = g + 1 :=
        ⟨fuel - 1, by have := jsz_pos h; simp only [jsz] at hf; omega⟩
      rw [parseObjLoop_succ]
      have hshape : serStr k ++ 58 :: 32 :: (serV .top h ++ (serV .otail JValue.objNil ++ 125 :: rest)) =
          34 :: (escStr k ++ (34 :: (58 :: 32 :: (serV .top h ++ 125 :: rest)))) := by
        simp [serStr, serV, List.append_assoc]
      rw [hshape]
      simp only []
      rw [parseStringAux_escStr k _ _ hwk (by
        have h1 := escStr_length_ge k
        simp only [List.length_append, List.length_cons]
        omega)]
      simp only []
      rw [show skipWs (58 :: 32 :: (serV .top h ++ 125 :: rest)) =
        58 :: 32 :: (serV .top h ++ 125 :: rest) from rfl]
      simp only []
      rw [show skipWs (32 :: (serV .top h ++ 125 :: rest)) = serV .top h ++ 125 :: rest from by
        rw [skipWs_32, skipWs_serTop]]
      rw [Ph g (125 :: rest) (by have := jsz_pos h; simp only [jsz] at hf; omega)
        (by simp [noDigitHead])]
      rfl
  | objCons k2 v2 t2 ih1 ih2 =>
    refine ⟨?_, ?_, ?_⟩
    · intro hw fuel rest hf hnd
      obtain ⟨hwk, hwv, hwt, hlink, hnone⟩ := wfV_objCons k2 v2 t2 hw
      have hspine := wf_isObjSpine t2 hwt hlink
      obtain ⟨g, rfl⟩ : ∃ g, fuel = g + 1 := ⟨fuel - 1, by simp only [jsz] at hf; omega⟩
      have hshape : serV .top (JValue.objCons k2 v2 t2) ++ rest =
          123 :: (34 :: (escStr k2 ++ (34 :: (58 :: 32 ::
            (serV .top v2 ++ (serV .otail t2 ++ 125 :: rest)))))) := by
        simp [serV, serStr, List.append_assoc]
      rw [hshape, parseValue_succ_obj]
      rw [show skipWs (34 :: (escStr k2 ++ (34 :: (58 :: 32 ::
          (serV .top v2 ++ (serV .otail t2 ++ 125 :: rest)))))) =
        34 :: (escStr k2 ++ (34 :: (58 :: 32 ::
          (serV .top v2 ++ (serV .otail t2 ++ 125 :: rest))))) from rfl]
      simp only []
      rw [if_neg (by omega : ¬(34 : Nat) = 125)]
      have hloop := ih2.2.2 hwt hspine k2 v2 hwk hwv
        (fun fuel2 rest2 hf2 hnd2 => ih1.1 hwv fuel2 rest2 hf2 hnd2) g rest
        (by have := jsz_pos v2; have := jsz_pos t2; simp only [jsz] at hf; omega)
      rw [show serStr k2 ++ 58 :: 32 :: (serV .top v2 ++ (serV .otail t2 ++ 125 :: rest)) =
        34 :: (escStr k2 ++ (34 :: (58 :: 32 ::
          (serV .top v2 ++ (serV .otail t2 ++ 125 :: rest))))) from by
            simp [serStr, List.append_assoc]] at hloop
      rw [hloop]
      simp only [Option.map_some']
      rw [show (k2, v2) :: pairsOf t2 = pairsOf (JValue.objCons k2 v2 t2) from rfl]
      rw [dictOfPairs_pairsOf (JValue.objCons k2 v2 t2) hw (by simp only [isObjSpine]; exact hspine)]
    · intro _ hs; exact absurd hs (by simp [isArrSpine])
    · intro hw hs k h hwk hwh Ph fuel rest hf
      obtain ⟨hwk2, hwv2, hwt2, hlink2, hnone2⟩ := wfV_objCons k2 v2 t2 hw
      simp only [isObjSpine] at hs
      obtain ⟨g, rfl⟩ : ∃ g, fuel = g + 1 :=
        ⟨fuel - 1, by have := jsz_pos h; simp only [jsz] at hf; omega⟩
      rw [parseObjLoop_succ]
      have hshape : serStr k ++ 58 :: 32 ::
          (serV .top h ++ (serV .otail (JValue.objCons k2 v2 t2) ++ 125 :: rest)) =
          34 :: (escStr k ++ (34 :: (58 :: 32 :: (serV .top h ++ (44 :: 32 ::
            (serStr k2 ++ 58 :: 32 :: (serV .top v2 ++ (serV .otail t2 ++ 125 :: rest)))))))) := by
        simp [serStr, serV, List.append_assoc]
      rw [hshape]
      simp only []
      rw [parseStringAux_escStr k _ _ hwk (by
        have h1 := escStr_length_ge k
        simp only [List.length_append, List.length_cons]
        omega)]
      simp only []
      rw [show skipWs (58 :: 32 :: (serV .top h ++ (44 :: 32 ::
          (serStr k2 ++ 58 :: 32 :: (serV .top v2 ++ (serV .otail t2 ++ 125 :: rest)))))) =
        58 :: 32 :: (serV .top h ++ (44 :: 32 ::
          (serStr k2 ++ 58 :: 32 :: (serV .top v2 ++ (serV .otail t2 ++ 125 :: rest))))) from rfl]
      simp only []
      rw [show skipWs (32 :: (serV .top h ++ (44 :: 32 ::
          (serStr k2 ++ 58 :: 32 :: (serV .top v2 ++ (serV .otail t2 ++ 125 :: rest)))))) =
        serV .top h ++ (44 :: 32 ::
          (serStr k2 ++ 58 :: 32 :: (serV .top v2 ++ (serV .otail t2 ++ 125 :: rest)))) from by
            rw [skipWs_32, skipWs_serTop]]
      have hfh : jsz h ≤ g := by
        have := jsz_pos h
        have := jsz_pos v2
        have := jsz_pos t2
        simp only [jsz] at hf
        omega
      rw [Ph g _ hfh (by simp [noDigitHead])]
      simp only []
      rw [show skipWs (44 :: 32 :: (serStr k2 ++ 58 :: 32 ::
          (serV .top v2 ++ (serV .otail t2 ++ 125 :: rest)))) =
        44 :: 32 :: (serStr k2 ++ 58 :: 32 ::
          (serV .top v2 ++ (serV .otail t2 ++ 125 :: rest))) from rfl]
      simp only []
      rw [show skipWs (32 :: (serStr k2 ++ 58 :: 32 ::
          (serV .top v2 ++ (serV .otail t2 ++ 125 :: rest)))) =
        serStr k2 ++ 58 :: 32 :: (serV .top v2 ++ (serV .otail t2 ++ 125 :: rest)) from by
          rw [skipWs_32]
          rw [show serStr k2 ++ 58 :: 32 :: (serV .top v2 ++ (serV .otail t2 ++ 125 :: rest)) =
            34 :: ((escStr k2 ++ [34]) ++ 58 :: 32 ::
              (serV .top v2 ++ (serV .otail t2 ++ 125 :: rest))) from by
                simp [serStr, List.append_assoc]]
          rfl]
      have hfl : jsz v2 + jsz t2 ≤ g := by
        have := jsz_pos h
        have := jsz_pos v2
        have := jsz_pos t2
        simp only [jsz] at hf
        omega
      rw [ih2.2.2 hwt2 (wf_isObjSpine t2 hwt2 hlink2) k2 v2 hwk2 hwv2
        (fun fuel2 rest2 hf2 hnd2 => ih1.1 hwv2 fuel2 rest2 hf2 hnd2) g rest hfl]
      rfl

lemma jsz_le_serLen : ∀ v : JValue,
    (wfV v = true → jsz v ≤ (serV .top v).length) ∧
    (wfV v = true → isArrSpine v = true → jsz v ≤ (serV .atail v).length + 1) ∧
    (wfV v = true → isObjSpine v = true → jsz v ≤ (serV .otail v).length + 1) := by
  intro v
  induction v with
  | null =>
    exact ⟨fun _ => by decide, fun _ hs => absurd hs (by decide),
      fun _ hs => absurd hs (by decide)⟩
  | bool b =>
    refine ⟨fun _ => ?_, fun _ hs => absurd hs (by cases b <;> simp [isArrSpine]),
      fun _ hs => absurd hs (by cases b <;> simp [isObjSpine])⟩
    cases b <;> decide
  | num n =>
    refine ⟨fun _ => ?_, fun _ hs => absurd hs (by simp [isArrSpine]),
      fun _ hs => absurd hs (by simp [isObjSpine])⟩
    cases n with
    | ofNat m =>
      obtain ⟨d, ds, hnd, _, _⟩ := natToDecimal_cons m
      simp only [serV, intToDec, jsz, hnd, List.length_cons]
      omega
    | negSucc m =>
      simp only [serV, intToDec, jsz, List.length_cons]
      omega
  | str s =>
    refine ⟨fun _ => ?_, fun _ hs => absurd hs (by simp [isArrSpine]),
      fun _ hs => absurd hs (by simp [isObjSpine])⟩
    simp only [serV, serStr, jsz, List.length_cons]
    omega
  | arrNil =>
    exact ⟨fun _ => by decide, fun _ _ => by decide, fun _ hs => absurd hs (by decide)⟩
  | arrCons hd tl ih1 ih2 =>
    refine ⟨?_, ?_, fun _ hs => absurd hs (by simp [isObjSpine])⟩
    · intro hw
      obtain ⟨hwh, hwt, hlink⟩ := wfV_arrCons hd tl hw
      have h1 := ih1.1 hwh
      have h2 := ih2.2.1 hwt (wf_isArrSpine tl hwt hlink)
      simp only [serV, jsz, List.length_cons, List.length_append]
      omega
    · intro hw _
      obtain ⟨hwh, hwt, hlink⟩ := wfV_arrCons hd tl hw
      have h1 := ih1.1 hwh
      have h2 := ih2.2.1 hwt (wf_isArrSpine tl hwt hlink)
      simp only [serV, jsz, List.length_cons, List.length_append]
      omega
  | objNil =>
    exact ⟨fun _ => by decide, fun _ hs => absurd hs (by decide), fun _ _ => by decide⟩
  | objCons k2 v2 t2 ih1 ih2 =>
    refine ⟨?_, fun _ hs => absurd hs (by simp [isArrSpine]), ?_⟩
    · intro hw
      obtain ⟨hwk, hwv, hwt, hlink, _⟩ := wfV_objCons k2 v2 t2 hw
      have h1 := ih1.1 hwv
      have h2 := ih2.2.2 hwt (wf_isObjSpine t2 hwt hlink)
      simp only [serV, serStr, jsz, List.length_cons, List.length_append]
      omega
    · intro hw _
      obtain ⟨hwk, hwv, hwt, hlink, _⟩ := wfV_objCons k2 v2 t2 hw
      have h1 := ih1.1 hwv
      have h2 := ih2.2.2 hwt (wf_isObjSpine t2 hwt hlink)
      simp only [serV, serStr, jsz, List.length_cons, List.length_append]
      omega

lemma pyLoads_pyDumps (m : JValue) (hw : wfV m = true) : pyLoads (pyDumps m) = some m := by
  rw [pyLoads, pyDumps]
  rw [show skipWs (serV .top m) = serV .top m from by
    have h := skipWs_serTop m []
    simpa using h]
  have hb := (jsz_le_serLen m).1 hw
  have h := (parse_serV m).1 hw ((serV .top m).length + 1) [] (by omega) (by simp [noDigitHead])
  rw [List.append_nil] at h
  rw [h]
  rfl

/-! ### Frame-level lemmas -/

lemma readline_append (l r : List Nat) (hl : (10 : Nat) ∉ l) :
    readline (l ++ 10 :: r) = (l ++ [10], r) := by
  induction l with
  | nil => simp [readline]
  | cons c l2 ih =>
    simp only [List.cons_append, readline, List.append_eq]
    rw [if_neg (fun h => hl (by rw [h]; exact List.mem_cons_self 10 l2))]
    rw [ih (fun h => hl (List.mem_cons_of_mem c h))]

lemma startsWithCL_append (p x : List Nat) : startsWithCL p (p ++ x) = true := by
  induction p with
  | nil => rfl
  | cons c p2 ih => simp [startsWithCL, ih]

lemma natToDecimal_all_digits (n : Nat) :
    (natToDecimal n).all (fun c => decide (48 ≤ c ∧ c ≤ 57)) = true := by
  rw [List.all_eq_true]
  intro c hc
  rw [decide_eq_true_eq]
  exact natToDecimal_digits n c hc

lemma digitsToNat_natToDecimal (n : Nat) : digitsToNat (natToDecimal n) = some n := by
  rw [digitsToNat, if_neg (natToDecimal_ne_nil n), if_pos (natToDecimal_all_digits n),
    digitsVal_natToDecimal]

lemma pyInt_header (N : Nat) :
    pyInt (32 :: (natToDecimal N ++ [13, 10])) = some (N : Int) := by
  obtain ⟨d, ds, hnd, hd1, hd2⟩ := natToDecimal_cons N
  have hstrip : stripChars (32 :: (natToDecimal N ++ [13, 10])) = natToDecimal N := by
    rw [stripChars, List.dropWhile_cons]
    rw [if_pos (by simp [isPyWs])]
    rw [hnd, List.cons_append, List.dropWhile_cons,
      if_neg (by simp [isPyWs]; omega)]
    rw [show ((d :: (ds ++ [13, 10])).reverse : List Nat) =
      10 :: 13 :: (ds.reverse ++ [d]) from by simp]
    rw [List.dropWhile_cons, if_pos (by simp [isPyWs])]
    rw [List.dropWhile_cons, if_pos (by simp [isPyWs])]
    have hall : ∀ c ∈ ds.reverse ++ [d], 48 ≤ c ∧ c ≤ 57 := by
      intro c hc
      rcases List.mem_append.mp hc with h | h
      · refine natToDecimal_digits N c ?_
        rw [hnd]
        exact List.mem_cons_of_mem d (List.mem_reverse.mp h)
      · simp at h
        omega
    have hdw : (ds.reverse ++ [d] : List Nat).dropWhile isPyWs = ds.reverse ++ [d] := by
      cases he : (ds.reverse ++ [d] : List Nat) with
      | nil => simp at he
      | cons e es =>
        have hed : 48 ≤ e ∧ e ≤ 57 := by
          refine hall e ?_
          rw [he]
          exact List.mem_cons_self e es
        rw [List.dropWhile_cons, if_neg (by simp [isPyWs]; omega)]
    rw [hdw]
    rw [show ((ds.reverse ++ [d] : List Nat)).reverse = d :: ds from by simp, ← hnd]
  rw [pyInt, hstrip, hnd]
  simp only []
  rw [if_neg (by omega), if_neg (by omega), ← hnd, digitsToNat_natToDecimal]
  rfl

lemma receive_frame (m : JValue) (rest : List Nat) (hw : wfV m = true) :
    receiveMessage (sendRawMessage m ++ rest) = .msg m rest := by
  have h10nd : (10 : Nat) ∉ natToDecimal (pyDumps m).length := by
    intro h
    have := natToDecimal_digits (pyDumps m).length 10 h
    omega
  have hpre : (10 : Nat) ∉
      pystr "Content-Length: " ++ natToDecimal (pyDumps m).length ++ [13] := by
    intro h
    rcases List.mem_append.mp h with h | h
    · rcases List.mem_append.mp h with h | h
      · exact absurd h (by decide)
      · exact h10nd h
    · simp at h
  have hstream : sendRawMessage m ++ rest =
      (pystr "Content-Length: " ++ natToDecimal (pyDumps m).length ++ [13]) ++
        10 :: ([13, 10] ++ (pyDumps m ++ rest)) := by
    simp [sendRawMessage, List.append_assoc]
  have hline := readline_append
    (pystr "Content-Length: " ++ natToDecimal (pyDumps m).length ++ [13])
    ([13, 10] ++ (pyDumps m ++ rest)) hpre
  have hlineform : (pystr "Content-Length: " ++ natToDecimal (pyDumps m).length ++ [13])
      ++ [10] = clChars ++ (32 :: (natToDecimal (pyDumps m).length ++ [13, 10])) := by
    rw [show pystr "Content-Length: " = clChars ++ [32] from by decide]
    simp [List.append_assoc]
  rw [hstream, receiveMessage]
  simp only [hline]
  rw [hlineform]
  rw [if_neg (by simp)]
  rw [if_neg (by rw [startsWithCL_append]; simp)]
  rw [show (15 : Nat) = clChars.length from rfl, List.drop_left]
  rw [pyInt_header (pyDumps m).length]
  simp only []
  rw [if_neg (by omega : ¬((pyDumps m).length : Int) < 0)]
  rw [if_neg (by omega : ¬((pyDumps m).length : Int) < 0)]
  rw [show readline ([13, 10] ++ (pyDumps m ++ rest)) = ([13, 10], pyDumps m ++ rest)
    from rfl]
  simp only [Int.toNat_ofNat]
  rw [List.take_left, List.drop_left]
  rw [pyLoads_pyDumps m hw]

/-! ### Loop-level lemmas -/

lemma readline_parts : ∀ s : List Nat, (readline s).1 ++ (readline s).2 = s := by
  intro s
  induction s with
  | nil => rfl
  | cons c r ih =>
    simp only [readline]
    by_cases h : c = 10
    · rw [if_pos h, h]
      rfl
    · rw [if_neg h]
      simp only [List.cons_append]
      rw [ih]

lemma recv_msg_lt (s : List Nat) (v : JValue) (rest : List Nat)
    (h : receiveMessage s = .msg v rest) : rest.length < s.length := by
  simp only [receiveMessage] at h
  by_cases h1 : (readline s).1.length = 0
  · rw [if_pos h1] at h
    simp at h
  · rw [if_neg h1] at h
    by_cases h2 : startsWithCL clChars (readline s).1 = false
    · rw [if_pos h2] at h
      simp at h
    · rw [if_neg h2] at h
      cases h3 : pyInt ((readline s).1.drop 15) with
      | none => rw [h3] at h; simp at h
      | some n =>
        rw [h3] at h
        simp only [] at h
        have hs_ne : 1 ≤ s.length := by
          cases s with
          | nil => simp [readline] at h1
          | cons c r => simp
        have hparts := readline_parts s
        have hlen1 : (readline s).1.length + (readline s).2.length = s.length := by
          rw [← List.length_append, hparts]
        have hparts2 := readline_parts (readline s).2
        have hlen2 : (readline (readline s).2).1.length +
            (readline (readline s).2).2.length = (readline s).2.length := by
          rw [← List.length_append, hparts2]
        cases h5 : pyLoads (if n < 0 then (readline (readline s).2).2
            else (readline (readline s).2).2.take n.toNat) with
        | none => rw [h5] at h; simp at h
        | some w =>
          rw [h5] at h
          by_cases h4 : n < 0
          · simp only [if_pos h4] at h
            cases h
            simp only [List.length_nil]
            omega
          · simp only [if_neg h4] at h
            cases h
            have := List.length_drop n.toNat (readline (readline s).2).2
            have := List.length_take n.toNat (readline (readline s).2).2
            omega

lemma runAux_fuel_eq : ∀ (f1 : Nat) (s : List Nat) (f2 : Nat),
    s.length < f1 → s.length < f2 → runAux f1 s = runAux f2 s := by
  intro f1
  induction f1 with
  | zero => intro s f2 h1 _; omega
  | succ g ih =>
    intro s f2 h1 h2
    obtain ⟨g2, rfl⟩ : ∃ g2, f2 = g2 + 1 := ⟨f2 - 1, by omega⟩
    cases hr : receiveMessage s with
    | eofR => simp only [runAux, hr]
    | fatalR => simp only [runAux, hr]
    | msg v rest =>
      have hlt := recv_msg_lt s v rest hr
      simp only [runAux, hr]
      cases hp : processMessage v with
      | emit out =>
        rw [ih rest g2 (by omega) (by omega)]
      | crashed => rfl

lemma run_cons_frame (s rest : List Nat) (v : JValue)
    (hrecv : receiveMessage s = .msg v rest) (hstep : processMessage v = .emit []) :
    run s = run rest := by
  have hlen := recv_msg_lt s v rest hrecv
  rw [run, run]
  conv_lhs => rw [runAux]
  rw [hrecv]
  simp only []
  rw [hstep]
  simp only []
  rw [runAux_fuel_eq s.length rest (rest.length + 1) (by omega) (by omega)]
  cases hr : runAux (rest.length + 1) rest <;> simp

/-! ### Claims about the receive loop and the wire format -/

set_option maxRecDepth 100000 in
/-- Claim C2, counterexample: a stream holding a `build/exit` notification
frame followed by a buffered `build/shutdown` request frame.  The loop does
not stop after processing `build/exit`: it reads the buffered frame and
answers it, so a further message is emitted after the exit notification. -/
theorem claim2_counterexample :
    run (sendRawMessage c2exitMsg ++ sendRawMessage c2shutdownMsg) =
      .done [successResponse (.num 1) .objNil] := by decide

/-- Claim C2 as amended: processing a `build/exit` notification does not
terminate the receive loop and emits nothing; the loop continues with the
remaining buffered bytes exactly as if the exit frame had not been there,
and it terminates only when the inbound stream is exhausted. -/
theorem claim2_exit_does_not_stop_loop (m pv : JValue) (rest : List Nat)
    (hw : wfV m = true)
    (hm : dictGet m methodK = some (.str (pystr "build/exit")))
    (hp : dictGet m paramsK = some pv) :
    run (sendRawMessage m ++ rest) = run rest :=
  run_cons_frame _ rest m (receive_frame m rest hw)
    (processMessage_of_none m (handleMessage_exit m pv hm hp))

/-- Witness for the amended claim C2 on the concrete exit frame. -/
theorem claim2_witness :
    run (sendRawMessage c2exitMsg ++ sendRawMessage c2shutdownMsg) =
      run (sendRawMessage c2shutdownMsg) :=
  claim2_exit_does_not_stop_loop c2exitMsg .objNil (sendRawMessage c2shutdownMsg)
    (by decide) (by decide) (by decide)

/-- Claim C6: serializing any well-formed message with `send_raw_message`
(compact JSON body behind a Content-Length header counting the body exactly)
and decoding the produced bytes with the frame-receive operation yields the
original message and leaves exactly the trailing bytes unread. -/
theorem claim6_send_receive_roundtrip (m : JValue) (rest : List Nat) (hw : wfV m = true) :
    receiveMessage (sendRawMessage m ++ rest) = .msg m rest :=
  receive_frame m rest hw

/-- Witness for claim C6 on a concrete `build/initialize` request. -/
theorem claim6_witness : receiveMessage (sendRawMessage c6msg ++ []) = .msg c6msg [] :=
  claim6_send_receive_roundtrip c6msg [] (by decide)

/-- Claim C9: a non-empty header line that does not begin with the literal
`Content-Length:` token makes the receive operation fail fatally (the assert
in `run`): no frame is returned and the whole loop aborts with no output. -/
theorem claim9_bad_header_fatal (s line : List Nat)
    (hline : (readline s).1 = line) (hne : line ≠ [])
    (hcl : startsWithCL clChars line = false) :
    receiveMessage s = .fatalR ∧ run s = .fatal [] := by
  have hrecv : receiveMessage s = .fatalR := by
    simp only [receiveMessage, hline]
    rw [if_neg (fun h => hne (List.length_eq_zero.mp h))]
    rw [hcl]
    rw [if_pos rfl]
  refine ⟨hrecv, ?_⟩
  rw [run]
  conv_lhs => rw [runAux]
  rw [hrecv]

/-- Witness for claim C9 on a concrete malformed stream. -/
theorem claim9_witness : receiveMessage c9stream = .fatalR ∧ run c9stream = .fatal [] :=
  claim9_bad_header_fatal c9stream (pystr "Hello\n") (by decide) (by decide) (by decide)
